import Mathlib

/-!
# Verification of the Mini_Game grid engine (`ww.py`)

Shallow embedding of the game engine in `ww.py`: a `Stage` holding a list of
actors (player, boxes, walls, monsters, sticky boxes) on a bounded integer
grid, with the polymorphic movement-resolution protocol (`move` methods),
the per-tick `step` hooks, and the tick loop `Stage.step`.

Modelling conventions:
* Python objects are identified by a numeric `aid`.  The Python runtime keeps
  an object alive even after `Stage.remove_actor` drops it from the stage's
  `_actors` list, so a `Stage` carries both a `pool` (every object ever
  created, with its attributes) and `order` (the `_actors` list, as a list of
  ids in insertion order).  `remove_actor` erases the first occurrence of an
  id from `order` and leaves `pool` untouched, exactly as Python's
  `list.remove` drops the reference while the object survives.
* Python method return values `True` / `False` / implicit `None` are embedded
  as `some true` / `some false` / `none : Option Bool`.
* The assignment `Actor.is_dead = True` inside `Monster.is_dead` mutates the
  Python *class* `Actor`: a process-global effect.  It is embedded as the
  stage-level flag `classIsDead`.  The per-instance assignments
  `self.is_dead = True` / `actor.is_dead = True` (which shadow the method on
  one object) are embedded as the per-actor field `isDeadAttr`.
* The mutual recursion between `move` methods (a box asking the next occupant
  to move) is embedded with a fuel parameter; every theorem supplies enough
  fuel for the chains it touches.
-/

/-- The runtime class of an actor in `ww.py`:  `KeyboardPlayer`, `Box`,
`Wall`, `Monster`, or `sticky`. -/
inductive Kind where
  | player
  | box
  | wall
  | monster
  | sticky
deriving DecidableEq, Repr

/-- One Python actor object: its identity and all attributes that the game
logic reads or writes.  `hdx`/`hdy` are `Monster._dx`/`Monster._dy` (heading),
`delayF`/`delayCount` are `_delay`/`_delay_count`, `insideSticky` is the
`inside_sticky` attribute, `isDeadAttr` models a per-instance `is_dead = True`
assignment, and `lastEvent` is `KeyboardPlayer._last_event`. -/
structure Actor where
  aid : Nat
  kind : Kind
  x : Int
  y : Int
  hdx : Int := 1
  hdy : Int := 1
  delayF : Nat := 5
  delayCount : Nat := 0
  insideSticky : Bool := false
  isDeadAttr : Bool := false
  lastEvent : Option Int := none
deriving DecidableEq, Repr

/-- The `Stage`: logical `width`/`height`, the object pool, the `_actors`
list (`order`, ids in insertion order), and the `Actor.is_dead` class
attribute (`classIsDead`, see module comment). -/
structure Stage where
  width : Int
  height : Int
  pool : List Actor
  order : List Nat
  classIsDead : Bool := false
deriving DecidableEq, Repr

/-- Look up an actor object by id in the pool (Python attribute access on a
reference). -/
def find_actor (s : Stage) (i : Nat) : Option Actor :=
  s.pool.find? (fun a => a.aid == i)

/-- Mutate the attributes of the object with id `i` (Python attribute
assignment on a reference). -/
def update_actor (s : Stage) (i : Nat) (f : Actor → Actor) : Stage :=
  { s with pool := s.pool.map (fun a => if a.aid == i then f a else a) }

/-- `Stage.is_in_bounds_x`: `0 <= x and x < self._width`. -/
def is_in_bounds_x (s : Stage) (x : Int) : Bool :=
  decide (0 ≤ x) && decide (x < s.width)

/-- `Stage.is_in_bounds_y`: `0 <= y and y < self._height`. -/
def is_in_bounds_y (s : Stage) (y : Int) : Bool :=
  decide (0 ≤ y) && decide (y < s.height)

/-- `Stage.is_in_bounds`. -/
def is_in_bounds (s : Stage) (x y : Int) : Bool :=
  is_in_bounds_x s x && is_in_bounds_y s y

/-- The Python list `Stage._actors` as a list of actor objects (each id in
`order` dereferenced through the pool). -/
def actors_list (s : Stage) : List Actor :=
  s.order.filterMap (find_actor s)

/-- `Stage.get_actor`: the first actor in `_actors` whose position is
`(x, y)`, or `None`. -/
def get_actor (s : Stage) (x y : Int) : Option Actor :=
  (actors_list s).find? (fun a => a.x == x && a.y == y)

/-- `Stage.remove_actor`: `self._actors.remove(actor)` — drop the first
occurrence of the reference from the list; the object itself survives. -/
def remove_actor (s : Stage) (i : Nat) : Stage :=
  { s with order := s.order.erase i }

/-- `Stage.add_actor`: append to `_actors` (registering the object in the
pool as well). -/
def add_actor (s : Stage) (a : Actor) : Stage :=
  { s with pool := s.pool ++ [a], order := s.order ++ [a.aid] }

/-- `Actor.move`: unconditionally `set_position(self._x + dx, self._y + dy)`
(the position is re-read from the object at call time). -/
def actor_move_by (s : Stage) (i : Nat) (dx dy : Int) : Stage :=
  update_actor s i (fun a => { a with x := a.x + dx, y := a.y + dy })

/-- `Actor.delay`: `self._delay_count = (self._delay_count+1) % self._delay;
return self._delay_count == 0`. -/
def actor_delay (s : Stage) (i : Nat) : Bool × Stage :=
  match find_actor s i with
  | none => (false, s)
  | some a =>
    let c := (a.delayCount + 1) % a.delayF
    (decide (c = 0), update_actor s i (fun b => { b with delayCount := c }))

/-- `isinstance(a, Box)` on runtime classes: true for `Box` and its subclass
`sticky`. -/
def isBoxInstance (k : Kind) : Bool :=
  k == Kind.box || k == Kind.sticky

/-- `isinstance(a, Monster)`. -/
def isMonsterInstance (k : Kind) : Bool :=
  k == Kind.monster

/-- `isinstance(a, KeyboardPlayer)`. -/
def isPlayerInstance (k : Kind) : Bool :=
  k == Kind.player

/-- `Monster.is_dead`: the monster dies iff all 8 neighbouring cells hold an
actor; in that case the source also executes `Actor.is_dead = True`,
assigning to the *class* `Actor` (embedded as the `classIsDead` flag). -/
def monster_is_dead (s : Stage) (i : Nat) : Bool × Stage :=
  match find_actor s i with
  | none => (false, s)
  | some a =>
    let c1 := get_actor s (a.x + 1) a.y
    let c2 := get_actor s (a.x - 1) a.y
    let c3 := get_actor s a.x (a.y + 1)
    let c4 := get_actor s a.x (a.y - 1)
    let c5 := get_actor s (a.x + 1) (a.y + 1)
    let c6 := get_actor s (a.x - 1) (a.y - 1)
    let c7 := get_actor s (a.x + 1) (a.y - 1)
    let c8 := get_actor s (a.x - 1) (a.y + 1)
    if c1.isSome && c2.isSome && c3.isSome && c4.isSome &&
        c5.isSome && c6.isSome && c7.isSome && c8.isSome then
      (true, { s with classIsDead := true })
    else
      (false, s)

/-- Type of a `move`-method call: stage, receiver id, requester id, (dx, dy);
result is the Python return value (`Option Bool`) and the mutated stage. -/
abbrev MoveFn := Stage → Nat → Nat → Int → Int → Option Bool × Stage

/-- `Box.move`, with the dynamic dispatch to the occupant's `move` passed in
as `recur`.  Mirrors the source: move freely into an empty in-bounds cell;
if the occupant is a `Box` (or subclass) ask it to move and re-check the
cell; otherwise refuse. -/
def box_move (recur : MoveFn) (s : Stage) (self : Actor) (otherId : Nat)
    (dx dy : Int) : Option Bool × Stage :=
  let nx := self.x + dx
  let ny := self.y + dy
  if is_in_bounds s nx ny && (get_actor s nx ny).isNone then
    (some true, actor_move_by s self.aid dx dy)
  else
    match get_actor s nx ny with
    | some occ =>
      if isBoxInstance occ.kind then
        let s1 := (recur s occ.aid self.aid dx dy).2
        match get_actor s1 nx ny with
        | none => (some true, actor_move_by s1 self.aid dx dy)
        | some _ => (some false, s1)
      else (some false, s)
    | none => (some false, s)

/-- `sticky.move`: if the destination holds a `Monster`, relocate
unconditionally via `Actor.move`, then set `inside_sticky = True` on
whatever `get_actor` now returns at the destination; otherwise behave as
`Box.move`.  Either way the method body falls off the end, so the Python
return value is `None`. -/
def sticky_move (recur : MoveFn) (s : Stage) (self : Actor) (otherId : Nat)
    (dx dy : Int) : Option Bool × Stage :=
  let nx := self.x + dx
  let ny := self.y + dy
  match get_actor s nx ny with
  | some occ =>
    if isMonsterInstance occ.kind then
      let s1 := actor_move_by s self.aid dx dy
      let s2 :=
        match get_actor s1 nx ny with
        | some b => update_actor s1 b.aid (fun a => { a with insideSticky := true })
        | none => s1
      (none, s2)
    else (none, (box_move recur s self otherId dx dy).2)
  | none => (none, (box_move recur s self otherId dx dy).2)

/-- The tail of `Monster.move` (the two bounce `if`s).  Reverses the
x-heading when the x-destination is out of bounds or the cell is occupied;
then either reverses the y-heading and returns `False`, or — because the
source's `else` is attached only to the second `if` — falls into
`super().move(other, dx, dy)` and returns `True` even when the x-test
already failed. -/
def monster_bounce (s1 : Stage) (selfId : Nat) (occSome : Bool)
    (nx ny dx dy : Int) : Option Bool × Stage :=
  if !(is_in_bounds_x s1 nx) || occSome then
    let s2 := update_actor s1 selfId (fun a => { a with hdx := -a.hdx })
    if !(is_in_bounds_y s2 ny) || occSome then
      (some false, update_actor s2 selfId (fun a => { a with hdy := -a.hdy }))
    else
      (some true, actor_move_by s2 selfId dx dy)
  else
    if !(is_in_bounds_y s1 ny) || occSome then
      (some false, update_actor s1 selfId (fun a => { a with hdy := -a.hdy }))
    else
      (some true, actor_move_by s1 selfId dx dy)

/-- `Monster.move`.  Refuses a request from anyone else; computes the
destination from the *heading* (`self._dx`, `self._dy`); runs `is_dead`
(whose only effect is the class-attribute assignment); does nothing while
`inside_sticky`; kills a `KeyboardPlayer` found at the destination; then
runs the bounce tail `monster_bounce`. -/
def monster_move (s : Stage) (self : Actor) (otherId : Nat)
    (dx dy : Int) : Option Bool × Stage :=
  if otherId != self.aid then
    (some false, s)
  else
    let nx := self.x + self.hdx
    let ny := self.y + self.hdy
    let s0 := (monster_is_dead s self.aid).2
    if self.insideSticky then
      (none, s0)
    else
      let occ := get_actor s0 nx ny
      let s1 :=
        match occ with
        | some o =>
          if isPlayerInstance o.kind then
            update_actor (remove_actor s0 o.aid) o.aid
              (fun a => { a with isDeadAttr := true })
          else s0
        | none => s0
      monster_bounce s1 self.aid occ.isSome nx ny dx dy

/-- `KeyboardPlayer.move`: free move into an empty in-bounds cell; walking
into a `Monster` kills the player (`self.is_dead = True`, removal from the
stage) and the method still falls through to `return True`; walking into a
`Box` pushes it and re-checks the cell; anything else refuses. -/
def player_move (recur : MoveFn) (s : Stage) (self : Actor) (otherId : Nat)
    (dx dy : Int) : Option Bool × Stage :=
  let nx := self.x + dx
  let ny := self.y + dy
  if is_in_bounds s nx ny && (get_actor s nx ny).isNone then
    (some true, actor_move_by s self.aid dx dy)
  else
    match get_actor s nx ny with
    | some occ =>
      if isMonsterInstance occ.kind then
        (some true,
          remove_actor (update_actor s self.aid (fun a => { a with isDeadAttr := true }))
            self.aid)
      else if isBoxInstance occ.kind then
        let s1 := (recur s occ.aid self.aid dx dy).2
        match get_actor s1 nx ny with
        | none => (some true, actor_move_by s1 self.aid dx dy)
        | some _ => (some false, s1)
      else (some false, s)
    | none => (some false, s)

/-- Dynamic dispatch of `a.move(other, dx, dy)` on the runtime class of the
receiver, with fuel bounding the push-chain recursion depth.  `Wall` has no
override and inherits `Actor.move`. -/
def moveActor : Nat → MoveFn
  | 0 => fun s _ _ _ _ => (none, s)
  | fuel + 1 => fun s selfId otherId dx dy =>
    match find_actor s selfId with
    | none => (none, s)
    | some a =>
      match a.kind with
      | Kind.box => box_move (moveActor fuel) s a otherId dx dy
      | Kind.sticky => sticky_move (moveActor fuel) s a otherId dx dy
      | Kind.monster => monster_move s a otherId dx dy
      | Kind.player => player_move (moveActor fuel) s a otherId dx dy
      | Kind.wall => (some true, actor_move_by s a.aid dx dy)

/-- `Monster.step`:  remove self when `is_dead()`; always run the delay
counter; return early when the counter did not wrap *unless* ensnared; else
call `self.move(self, self._dx, self._dy)`. -/
def monster_step (s : Stage) (i : Nat) : Stage :=
  let r := monster_is_dead s i
  let s1 := if r.1 then remove_actor r.2 i else r.2
  let d := actor_delay s1 i
  match find_actor d.2 i with
  | none => d.2
  | some a =>
    if !d.1 && !a.insideSticky then d.2
    else (monster_move d.2 a i a.hdx a.hdy).2

/-- The key-to-direction table in `KeyboardPlayer.step` (pygame key codes:
s, w, d, a, q, e, c, z). -/
def decodeKey (e : Int) : Option (Int × Int) :=
  if e = 115 then some (0, 1)
  else if e = 119 then some (0, -1)
  else if e = 100 then some (1, 0)
  else if e = 97 then some (-1, 0)
  else if e = 113 then some (-1, -1)
  else if e = 101 then some (1, -1)
  else if e = 99 then some (1, 1)
  else if e = 122 then some (-1, 1)
  else none

/-- `KeyboardPlayer.step`: if an event is buffered, decode it, move when it
names a direction, and clear the buffer in every case. -/
def player_step (fuel : Nat) (s : Stage) (i : Nat) : Stage :=
  match find_actor s i with
  | none => s
  | some a =>
    match a.lastEvent with
    | none => s
    | some e =>
      let s1 :=
        match decodeKey e with
        | some d => (moveActor fuel s i i d.1 d.2).2
        | none => s
      update_actor s1 i (fun b => { b with lastEvent := none })

/-- `KeyboardPlayer.handle_event`: overwrite the single buffered event. -/
def handle_event (s : Stage) (i : Nat) (e : Int) : Stage :=
  update_actor s i (fun a => { a with lastEvent := some e })

/-- One actor's `step` hook, dispatched on its runtime class.  `Box`, `Wall`
and `sticky` inherit the empty `Actor.step`. -/
def step_actor (fuel : Nat) (s : Stage) (i : Nat) : Stage :=
  match find_actor s i with
  | none => s
  | some a =>
    match a.kind with
    | Kind.monster => monster_step s i
    | Kind.player => player_step fuel s i
    | _ => s

/-- The body of `Stage.step`'s `for a in self._actors: a.step()`, with
Python's list-iterator semantics: keep an index, re-check it against the
*current* length of the (possibly mutated) list each round. -/
def step_loop : Nat → Stage → Nat → Stage
  | 0, s, _ => s
  | fuel + 1, s, i =>
    if i < s.order.length then
      step_loop fuel (step_actor fuel s (s.order.getD i 0)) (i + 1)
    else s

/-- `Stage.step`. -/
def stage_step (fuel : Nat) (s : Stage) : Stage :=
  step_loop fuel s 0

/-! ## Basic lemmas about the stage operations -/

theorem find_actor_aid {s : Stage} {i : Nat} {a : Actor}
    (h : find_actor s i = some a) : a.aid = i := by
  have := List.find?_some h
  simpa [beq_iff_eq] using this

theorem find_actor_mem {s : Stage} {i : Nat} {a : Actor}
    (h : find_actor s i = some a) : a ∈ s.pool :=
  List.mem_of_find?_eq_some h

theorem find_actor_update (s : Stage) (i j : Nat) (f : Actor → Actor)
    (hf : ∀ a, (f a).aid = a.aid) :
    find_actor (update_actor s i f) j
      = Option.map (fun a => if a.aid == i then f a else a) (find_actor s j) := by
  unfold find_actor update_actor
  rw [List.find?_map]
  have hp : ((fun a => a.aid == j) ∘ fun a => if a.aid == i then f a else a)
      = (fun a => a.aid == j) := by
    funext a
    by_cases h : a.aid = i <;> simp [h, hf]
  rw [hp]

theorem find_actor_update_self (s : Stage) (i : Nat) (f : Actor → Actor)
    (hf : ∀ a, (f a).aid = a.aid) :
    find_actor (update_actor s i f) i = Option.map f (find_actor s i) := by
  rw [find_actor_update s i i f hf]
  cases h : find_actor s i with
  | none => rfl
  | some a => simp [find_actor_aid h]

theorem find_actor_update_other (s : Stage) (i j : Nat) (f : Actor → Actor)
    (hf : ∀ a, (f a).aid = a.aid) (hne : j ≠ i) :
    find_actor (update_actor s i f) j = find_actor s j := by
  rw [find_actor_update s i j f hf]
  cases h : find_actor s j with
  | none => rfl
  | some a => simp [find_actor_aid h, hne]

theorem find_actor_remove (s : Stage) (i j : Nat) :
    find_actor (remove_actor s i) j = find_actor s j := rfl

theorem update_actor_order (s : Stage) (i : Nat) (f : Actor → Actor) :
    (update_actor s i f).order = s.order := rfl

theorem remove_actor_order (s : Stage) (i : Nat) :
    (remove_actor s i).order = s.order.erase i := rfl

theorem get_actor_congr {s s' : Stage} (hp : s'.pool = s.pool) (ho : s'.order = s.order)
    (x y : Int) : get_actor s' x y = get_actor s x y := by
  unfold get_actor actors_list find_actor
  rw [hp, ho]

theorem find_actor_congr {s s' : Stage} (hp : s'.pool = s.pool) (j : Nat) :
    find_actor s' j = find_actor s j := by
  unfold find_actor
  rw [hp]

theorem monster_is_dead_pool (s : Stage) (i : Nat) :
    (monster_is_dead s i).2.pool = s.pool := by
  unfold monster_is_dead
  cases find_actor s i with
  | none => rfl
  | some a =>
    dsimp only
    split <;> rfl

theorem monster_is_dead_order (s : Stage) (i : Nat) :
    (monster_is_dead s i).2.order = s.order := by
  unfold monster_is_dead
  cases find_actor s i with
  | none => rfl
  | some a =>
    dsimp only
    split <;> rfl

/-- The occupant returned by `get_actor` is an object of the stage's pool. -/
theorem get_actor_mem_pool {s : Stage} {x y : Int} {o : Actor}
    (h : get_actor s x y = some o) : o ∈ s.pool := by
  have hmem := List.mem_of_find?_eq_some h
  unfold actors_list at hmem
  obtain ⟨j, _, hj⟩ := List.mem_filterMap.1 hmem
  exact find_actor_mem hj

/-- The occupant returned by `get_actor` is (by id) a member of the `_actors`
list. -/
theorem get_actor_aid_mem_order {s : Stage} {x y : Int} {o : Actor}
    (h : get_actor s x y = some o) : o.aid ∈ s.order := by
  have hmem := List.mem_of_find?_eq_some h
  unfold actors_list at hmem
  obtain ⟨j, hj, hfind⟩ := List.mem_filterMap.1 hmem
  rwa [find_actor_aid hfind]

/-- In a list with no duplicate ids, two members with the same id coincide. -/
theorem nodup_aid_inj_list : ∀ {l : List Actor},
    (l.map (fun a => a.aid)).Nodup → ∀ {a b : Actor},
    a ∈ l → b ∈ l → a.aid = b.aid → a = b := by
  intro l
  induction l with
  | nil => intro _ a b ha; cases ha
  | cons c t ih =>
    intro hnd a b ha hb hab
    simp only [List.map_cons, List.nodup_cons] at hnd
    rcases List.mem_cons.1 ha with rfl | ha' <;>
      rcases List.mem_cons.1 hb with rfl | hb'
    · rfl
    · exact absurd (hab ▸ List.mem_map_of_mem (fun a => a.aid) hb') hnd.1
    · exact absurd (hab ▸ List.mem_map_of_mem (fun a => a.aid) ha') hnd.1
    · exact ih hnd.2 ha' hb' hab

/-- Pool-level id-injectivity, phrased on a stage. -/
theorem nodup_aid_inj {s : Stage} (hnd : (s.pool.map (fun a => a.aid)).Nodup)
    {a b : Actor} (ha : a ∈ s.pool) (hb : b ∈ s.pool) (hab : a.aid = b.aid) :
    a = b :=
  nodup_aid_inj_list hnd ha hb hab

/-! ## Concrete scenarios exhibiting divergences between spec and code -/

/-- A plain `Box` for concrete scenarios. -/
def boxAt (i : Nat) (x y : Int) : Actor :=
  { aid := i, kind := Kind.box, x := x, y := y }

/-- The monster of the C1 scenario: at `(19, 5)` on a 20×20 stage with the
initial heading `(1, 1)` and delay factor 1 (acts every tick). -/
def c1_monster : Actor :=
  { aid := 0, kind := Kind.monster, x := 19, y := 5, delayF := 1 }

/-- A legal 20×20 initial world holding only `c1_monster`. -/
def c1_stage : Stage :=
  { width := 20, height := 20, pool := [c1_monster], order := [0] }

/-- C1: REFUTED.  The bounds invariant fails: starting from the legal 20×20
world `c1_stage` (monster at `(19, 5)`, heading `(1, 1)`), a single
`Stage.step` leaves the monster at `(20, 6)`, which is out of bounds on the
x-axis.  `Monster.move` reverses `_dx` for the failed x-bound but the
source's dangling `else` then still executes `super().move(other, dx, dy)`
because the y-test passed and the cell is empty. -/
theorem c1_entity_leaves_grid :
    (find_actor (stage_step 5 c1_stage) 0).map (fun a => (a.x, a.y)) = some (20, 6) ∧
    is_in_bounds (stage_step 5 c1_stage) 20 6 = false := by
  constructor
  · rfl
  · rfl

/-- The monster of the C2 scenario: at `(19, 7)`, heading `(1, 1)`, on a
20×20 stage; its destination `(20, 8)` is out of bounds on x only. -/
def c2_monster : Actor :=
  { aid := 0, kind := Kind.monster, x := 19, y := 7, delayF := 1 }

/-- The C2 stage: `c2_monster` alone on a 20×20 grid. -/
def c2_stage : Stage :=
  { width := 20, height := 20, pool := [c2_monster], order := [0] }

/-- C2: REFUTED in its "does not relocate" conjunct.  With the destination
out of bounds on x, in bounds on y, and unoccupied, `Monster.move` does
reverse only the x-heading (`_dx` becomes −1, `_dy` stays 1), but instead of
staying put it relocates the monster to the out-of-bounds destination
`(20, 8)` and returns `True`. -/
theorem c2_x_bounce_still_relocates :
    (monster_move c2_stage c2_monster 0 1 1).1 = some true ∧
    (find_actor (monster_move c2_stage c2_monster 0 1 1).2 0).map
        (fun a => (a.hdx, a.hdy, a.x, a.y)) = some (-1, 1, 20, 8) := by
  constructor
  · rfl
  · rfl

/-- The C4 stage: monster 0 at `(5, 5)` is fully surrounded by the eight
boxes 2–9, so it removes itself when stepped; monster 1 at `(1, 1)` has
delay factor 1 and an empty destination `(2, 2)`, so if its step hook ran it
would relocate to `(2, 2)`. -/
def c4_stage : Stage :=
  { width := 10, height := 10,
    pool := [{ aid := 0, kind := Kind.monster, x := 5, y := 5, delayF := 5 },
             { aid := 1, kind := Kind.monster, x := 1, y := 1, delayF := 1 },
             boxAt 2 4 4, boxAt 3 5 4, boxAt 4 6 4, boxAt 5 4 5,
             boxAt 6 6 5, boxAt 7 4 6, boxAt 8 5 6, boxAt 9 6 6],
    order := [0, 1, 2, 3, 4, 5, 6, 7, 8, 9] }

/-- C4: REFUTED.  `Stage.step` iterates the live `_actors` list by index:
when monster 0 removes itself during its own step, every later actor shifts
one slot left and the iterator skips monster 1 entirely.  After the tick,
monster 0 is gone from the list, yet monster 1 is still at `(1, 1)` with an
untouched delay counter — its step hook (which would have moved it to
`(2, 2)`) never ran. -/
theorem c4_removal_skips_next_entity :
    0 ∉ (stage_step 20 c4_stage).order ∧
    (find_actor (stage_step 20 c4_stage) 1).map
        (fun a => (a.x, a.y, a.delayCount)) = some (1, 1, 0) := by
  constructor
  · decide
  · rfl

/-- The C5 stage: a live monster at `(2, 2)` (inserted first) and a `sticky`
at `(1, 1)`. -/
def c5_stage : Stage :=
  { width := 5, height := 5,
    pool := [{ aid := 0, kind := Kind.monster, x := 2, y := 2 },
             { aid := 1, kind := Kind.sticky, x := 1, y := 1 }],
    order := [0, 1] }

/-- C5: the state effects hold but the return value does not.  Pushing the
sticky towards the monster relocates the sticky onto the monster's exact
cell `(2, 2)` and sets the monster's `inside_sticky` flag, but `sticky.move`
has no `return` statement on this path, so the call returns `None`
(embedded `none`), not `True` as the claim (and the method's declared
`-> bool` contract) state. -/
theorem c5_sticky_traps_but_returns_none :
    (moveActor 3 c5_stage 1 9 1 1).1 = none ∧
    (find_actor (moveActor 3 c5_stage 1 9 1 1).2 1).map (fun a => (a.x, a.y))
      = some (2, 2) ∧
    (find_actor (moveActor 3 c5_stage 1 9 1 1).2 0).map (fun a => a.insideSticky)
      = some true := by
  refine ⟨rfl, rfl, rfl⟩

/-! ## C10: the class-attribute side effect of `Monster.is_dead` -/

/-- All 8 neighbouring cells of `a` are occupied on stage `s`. -/
def surrounded (s : Stage) (a : Actor) : Prop :=
  (get_actor s (a.x + 1) a.y).isSome = true ∧
  (get_actor s (a.x - 1) a.y).isSome = true ∧
  (get_actor s a.x (a.y + 1)).isSome = true ∧
  (get_actor s a.x (a.y - 1)).isSome = true ∧
  (get_actor s (a.x + 1) (a.y + 1)).isSome = true ∧
  (get_actor s (a.x - 1) (a.y - 1)).isSome = true ∧
  (get_actor s (a.x + 1) (a.y - 1)).isSome = true ∧
  (get_actor s (a.x - 1) (a.y + 1)).isSome = true

instance (s : Stage) (a : Actor) : Decidable (surrounded s a) := by
  unfold surrounded
  infer_instance

/-- Evaluation of `Monster.is_dead` on a surrounded monster. -/
theorem monster_is_dead_of_surrounded {s : Stage} {i : Nat} {a : Actor}
    (hfind : find_actor s i = some a) (hs : surrounded s a) :
    monster_is_dead s i = (true, { s with classIsDead := true }) := by
  obtain ⟨h1, h2, h3, h4, h5, h6, h7, h8⟩ := hs
  unfold monster_is_dead
  rw [hfind]
  simp [h1, h2, h3, h4, h5, h6, h7, h8]

/-- Evaluation of `Monster.is_dead` on a monster with a free neighbour. -/
theorem monster_is_dead_of_not_surrounded {s : Stage} {i : Nat} {a : Actor}
    (hfind : find_actor s i = some a) (hs : ¬ surrounded s a) :
    monster_is_dead s i = (false, s) := by
  unfold monster_is_dead
  rw [hfind]
  dsimp only
  split
  · rename_i hall
    simp only [Bool.and_eq_true] at hall
    exact absurd ⟨hall.1.1.1.1.1.1.1, hall.1.1.1.1.1.1.2, hall.1.1.1.1.1.2,
      hall.1.1.1.1.2, hall.1.1.1.2, hall.1.1.2, hall.1.2, hall.2⟩ hs
  · rfl

/-- C10: CONFIRMED.  When `Monster.is_dead` finds all 8 neighbouring cells
occupied it returns `True` and executes `Actor.is_dead = True`, an
assignment to the class `Actor` itself (the process-global `classIsDead`
flag of the embedding); the resulting stage is literally the input stage
with only that flag changed, so no entity's per-instance state (`pool`) and
no stage membership (`order`) is modified by the check. -/
theorem c10_is_dead_class_side_effect (s : Stage) (i : Nat) (a : Actor)
    (hfind : find_actor s i = some a) (hs : surrounded s a) :
    monster_is_dead s i = (true, { s with classIsDead := true }) :=
  monster_is_dead_of_surrounded hfind hs

/-- The C10 witness stage: monster 0 at `(5, 5)` ringed by boxes 2–9. -/
def c10_stage : Stage :=
  { width := 10, height := 10,
    pool := [{ aid := 0, kind := Kind.monster, x := 5, y := 5 },
             boxAt 2 4 4, boxAt 3 5 4, boxAt 4 6 4, boxAt 5 4 5,
             boxAt 6 6 5, boxAt 7 4 6, boxAt 8 5 6, boxAt 9 6 6],
    order := [0, 2, 3, 4, 5, 6, 7, 8, 9] }

/-- Witness for C10 at the concrete stage `c10_stage`. -/
theorem c10_witness :
    monster_is_dead c10_stage 0 = (true, { c10_stage with classIsDead := true }) :=
  c10_is_dead_class_side_effect c10_stage 0
    { aid := 0, kind := Kind.monster, x := 5, y := 5 } (by rfl) (by decide)

/-! ## Frame lemmas for `Monster.move` and `Monster.step` -/

theorem update_actor_pool_aids (s : Stage) (i : Nat) (f : Actor → Actor)
    (hf : ∀ a, (f a).aid = a.aid) :
    ((update_actor s i f).pool.map (fun a => a.aid)) = s.pool.map (fun a => a.aid) := by
  unfold update_actor
  rw [List.map_map]
  apply List.map_congr_left
  intro a _
  by_cases h : a.aid = i <;> simp [h, hf]

/-- While `inside_sticky`, `Monster.move` only performs the `is_dead` call
(class-flag side effect) and falls off the end with `None`. -/
theorem monster_move_ensnared (s : Stage) (self : Actor) (dx dy : Int)
    (hsticky : self.insideSticky = true) :
    monster_move s self self.aid dx dy = (none, (monster_is_dead s self.aid).2) := by
  unfold monster_move
  simp [hsticky]


theorem find_actor_update_self_some {s : Stage} {i : Nat} {a : Actor}
    (f : Actor → Actor) (hf : ∀ b, (f b).aid = b.aid)
    (h : find_actor s i = some a) :
    find_actor (update_actor s i f) i = some (f a) := by
  rw [find_actor_update_self s i f hf, h]
  rfl

theorem monster_bounce_order (t : Stage) (i : Nat) (b : Bool) (nx ny dx dy : Int) :
    (monster_bounce t i b nx ny dx dy).2.order = t.order := by
  unfold monster_bounce
  dsimp only
  split <;> split <;> rfl

theorem monster_bounce_find (t : Stage) (i : Nat) (b : Bool) (nx ny dx dy : Int)
    (a : Actor) (hfind : find_actor t i = some a) :
    ∃ c, find_actor (monster_bounce t i b nx ny dx dy).2 i = some c ∧
      c.kind = a.kind ∧ c.delayCount = a.delayCount ∧
      c.insideSticky = a.insideSticky := by
  unfold monster_bounce
  dsimp only
  simp only [actor_move_by]
  split
  · split
    · exact ⟨_, find_actor_update_self_some _ (fun c => rfl)
        (find_actor_update_self_some _ (fun c => rfl) hfind), rfl, rfl, rfl⟩
    · exact ⟨_, find_actor_update_self_some _ (fun c => rfl)
        (find_actor_update_self_some _ (fun c => rfl) hfind), rfl, rfl, rfl⟩
  · split
    · exact ⟨_, find_actor_update_self_some _ (fun c => rfl) hfind, rfl, rfl, rfl⟩
    · exact ⟨_, find_actor_update_self_some _ (fun c => rfl) hfind, rfl, rfl, rfl⟩

/-- Evaluation of `Monster.move` when the monster is not ensnared: run
`is_dead`, look up the destination occupant, kill a player found there, and
run the bounce tail. -/
theorem monster_move_active (s : Stage) (self : Actor) (dx dy : Int)
    (hsticky : self.insideSticky = false) :
    monster_move s self self.aid dx dy =
      (let s0 := (monster_is_dead s self.aid).2
       let occ := get_actor s0 (self.x + self.hdx) (self.y + self.hdy)
       let s1 :=
         match occ with
         | some o =>
           if isPlayerInstance o.kind then
             update_actor (remove_actor s0 o.aid) o.aid
               (fun a => { a with isDeadAttr := true })
           else s0
         | none => s0
       monster_bounce s1 self.aid occ.isSome
         (self.x + self.hdx) (self.y + self.hdy) dx dy) := by
  unfold monster_move
  simp [hsticky]

/-- Effect of a monster's own `move` call on its pool entry and on the
`_actors` list: the monster's `kind`, `_delay_count` and `inside_sticky`
are untouched, and the `_actors` list either survives unchanged or loses
one id different from the monster's (a killed `KeyboardPlayer`). -/
theorem monster_move_self_effects (s : Stage) (self : Actor) (oid : Nat) (dx dy : Int)
    (hoid : oid = self.aid)
    (hpool : (s.pool.map (fun b => b.aid)).Nodup)
    (hself : find_actor s oid = some self)
    (hk : self.kind = Kind.monster) :
    (∃ b, find_actor (monster_move s self oid dx dy).2 oid = some b ∧
        b.kind = self.kind ∧ b.delayCount = self.delayCount ∧
        b.insideSticky = self.insideSticky) ∧
    ((monster_move s self oid dx dy).2.order = s.order ∨
      ∃ r, r ≠ oid ∧
        (monster_move s self oid dx dy).2.order = s.order.erase r) := by
  subst hoid
  have hpool0 : (monster_is_dead s self.aid).2.pool = s.pool :=
    monster_is_dead_pool s self.aid
  have horder0 : (monster_is_dead s self.aid).2.order = s.order :=
    monster_is_dead_order s self.aid
  have hfind0 : find_actor (monster_is_dead s self.aid).2 self.aid = some self := by
    rw [find_actor_congr hpool0]
    exact hself
  cases hsticky : self.insideSticky with
  | true =>
    rw [monster_move_ensnared s self dx dy hsticky]
    exact ⟨⟨self, hfind0, rfl, rfl, hsticky⟩, Or.inl horder0⟩
  | false =>
    rw [monster_move_active s self dx dy hsticky]
    dsimp only
    cases hocc : get_actor (monster_is_dead s self.aid).2
        (self.x + self.hdx) (self.y + self.hdy) with
    | none =>
      dsimp only
      obtain ⟨c, hc, h1, h2, h3⟩ := monster_bounce_find
        (monster_is_dead s self.aid).2 self.aid false
        (self.x + self.hdx) (self.y + self.hdy) dx dy self hfind0
      refine ⟨⟨c, hc, h1, h2, h3.trans hsticky⟩, Or.inl ?_⟩
      rw [monster_bounce_order, horder0]
    | some o =>
      have hmem : o ∈ s.pool := by
        have h := get_actor_mem_pool hocc
        rwa [hpool0] at h
      dsimp only
      by_cases hp : isPlayerInstance o.kind = true
      · have hne : o.aid ≠ self.aid := by
          intro h
          have heq : o = self := nodup_aid_inj hpool hmem (find_actor_mem hself) h
          rw [heq, hk] at hp
          exact absurd hp (by decide)
        rw [if_pos hp]
        have hfind1 : find_actor
            (update_actor (remove_actor (monster_is_dead s self.aid).2 o.aid) o.aid
              (fun a => { a with isDeadAttr := true })) self.aid = some self := by
          rw [find_actor_update_other _ o.aid self.aid
            (fun a => { a with isDeadAttr := true }) (fun a => rfl) (Ne.symm hne),
            find_actor_remove]
          exact hfind0
        obtain ⟨c, hc, h1, h2, h3⟩ := monster_bounce_find _ self.aid true
          (self.x + self.hdx) (self.y + self.hdy) dx dy self hfind1
        refine ⟨⟨c, hc, h1, h2, h3.trans hsticky⟩, Or.inr ⟨o.aid, hne, ?_⟩⟩
        rw [monster_bounce_order, update_actor_order, remove_actor_order, horder0]
      · rw [if_neg hp]
        obtain ⟨c, hc, h1, h2, h3⟩ := monster_bounce_find
          (monster_is_dead s self.aid).2 self.aid true
          (self.x + self.hdx) (self.y + self.hdy) dx dy self hfind0
        refine ⟨⟨c, hc, h1, h2, h3.trans hsticky⟩, Or.inl ?_⟩
        rw [monster_bounce_order, horder0]

theorem actor_delay_eval {s : Stage} {i : Nat} {a : Actor}
    (h : find_actor s i = some a) :
    actor_delay s i = (decide ((a.delayCount + 1) % a.delayF = 0),
      update_actor s i
        (fun b => { b with delayCount := (a.delayCount + 1) % a.delayF })) := by
  unfold actor_delay
  rw [h]

/-- One `Monster.step` of an ensnared monster: the delay counter is updated
and the move attempt runs (regardless of the counter), but the monster's
position, `inside_sticky` flag and class are unchanged. -/
theorem monster_step_ensnared (s : Stage) (i : Nat) (a : Actor)
    (hfind : find_actor s i = some a) (hsticky : a.insideSticky = true) :
    ∃ b, find_actor (monster_step s i) i = some b ∧
      b.x = a.x ∧ b.y = a.y ∧ b.insideSticky = true ∧ b.kind = a.kind := by
  have haid : a.aid = i := find_actor_aid hfind
  unfold monster_step
  dsimp only
  cases hdead : (monster_is_dead s i).1 with
  | true =>
    simp only [hdead, if_true]
    have hfind1 : find_actor (remove_actor (monster_is_dead s i).2 i) i = some a := by
      rw [find_actor_remove, find_actor_congr (monster_is_dead_pool s i)]
      exact hfind
    rw [actor_delay_eval hfind1]
    dsimp only
    rw [find_actor_update_self_some
      (fun b => { b with delayCount := (a.delayCount + 1) % a.delayF })
      (fun b => rfl) hfind1]
    dsimp only
    rw [hsticky]
    simp only [Bool.not_true, Bool.and_false, Bool.false_eq_true, if_false]
    have haid2 : ({ a with delayCount := (a.delayCount + 1) % a.delayF } : Actor).aid = i := haid
    rw [← haid2, monster_move_ensnared _ _ _ _ (by simpa using hsticky)]
    refine ⟨{ a with delayCount := (a.delayCount + 1) % a.delayF }, ?_, rfl, rfl, hsticky, rfl⟩
    rw [find_actor_congr (monster_is_dead_pool _ _), haid2,
      find_actor_update_self_some
        (fun b => { b with delayCount := (a.delayCount + 1) % a.delayF })
        (fun b => rfl) hfind1, haid]
  | false =>
    simp only [hdead, Bool.false_eq_true, if_false]
    have hfind1 : find_actor (monster_is_dead s i).2 i = some a := by
      rw [find_actor_congr (monster_is_dead_pool s i)]
      exact hfind
    rw [actor_delay_eval hfind1]
    dsimp only
    rw [find_actor_update_self_some
      (fun b => { b with delayCount := (a.delayCount + 1) % a.delayF })
      (fun b => rfl) hfind1]
    dsimp only
    rw [hsticky]
    simp only [Bool.not_true, Bool.and_false, Bool.false_eq_true, if_false]
    have haid2 : ({ a with delayCount := (a.delayCount + 1) % a.delayF } : Actor).aid = i := haid
    rw [← haid2, monster_move_ensnared _ _ _ _ (by simpa using hsticky)]
    refine ⟨{ a with delayCount := (a.delayCount + 1) % a.delayF }, ?_, rfl, rfl, hsticky, rfl⟩
    rw [find_actor_congr (monster_is_dead_pool _ _), haid2,
      find_actor_update_self_some
        (fun b => { b with delayCount := (a.delayCount + 1) % a.delayF })
        (fun b => rfl) hfind1, haid]

/-- C6: CONFIRMED.  A monster whose `inside_sticky` flag is set never
changes position again: over any number `n` of `Monster.step` calls, and
for every value of the delay counter (the statement quantifies over the
stored `_delay_count` through `a`), the monster's stored position stays
exactly where it was and the flag stays set.  The move attempt runs every
tick — the early-return guard `not delay() and not inside_sticky` can never
fire while ensnared — and is a no-op. -/
theorem c6_ensnared_monster_never_moves (s : Stage) (i : Nat) (a : Actor) (n : Nat)
    (hfind : find_actor s i = some a) (hk : a.kind = Kind.monster)
    (hsticky : a.insideSticky = true) :
    ∃ b, find_actor ((fun t => monster_step t i)^[n] s) i = some b ∧
      b.x = a.x ∧ b.y = a.y ∧ b.insideSticky = true := by
  induction n generalizing s a with
  | zero => exact ⟨a, hfind, rfl, rfl, hsticky⟩
  | succ n ih =>
    rw [Function.iterate_succ_apply]
    obtain ⟨b, hb, hbx, hby, hbs, hbk⟩ := monster_step_ensnared s i a hfind hsticky
    obtain ⟨c, hc, hcx, hcy, hcs⟩ := ih (monster_step s i) b hb (hbk.trans hk) hbs
    exact ⟨c, hc, hcx.trans hbx, hcy.trans hby, hcs⟩

/-- The C6 witness stage: an ensnared monster at `(2, 2)` sharing its cell
with the sticky box that trapped it. -/
def c6_stage : Stage :=
  { width := 5, height := 5,
    pool := [{ aid := 0, kind := Kind.monster, x := 2, y := 2, insideSticky := true },
             { aid := 1, kind := Kind.sticky, x := 2, y := 2 }],
    order := [0, 1] }

/-- Witness for C6: three consecutive steps of the ensnared monster of
`c6_stage` leave it at `(2, 2)`, still ensnared. -/
theorem c6_witness :
    ∃ b, find_actor ((fun t => monster_step t 0)^[3] c6_stage) 0 = some b ∧
      b.x = 2 ∧ b.y = 2 ∧ b.insideSticky = true :=
  c6_ensnared_monster_never_moves c6_stage 0
    { aid := 0, kind := Kind.monster, x := 2, y := 2, insideSticky := true } 3
    rfl rfl rfl

/-- C7 (amended): a fully surrounded monster is removed from the `_actors`
list by its next step, for every value of its delay counter; a monster with
at least one free neighbouring cell is never removed by the death check.
However — against the claim's "no further processing" — the removed
monster still runs its delay counter (its `_delay_count` is updated that
very tick) and may still attempt a move, because `Monster.step` does not
return after `remove_actor`. -/
theorem c7_encirclement_death (s : Stage) (i : Nat) (a : Actor)
    (hpool : (s.pool.map (fun b => b.aid)).Nodup)
    (horder : s.order.Nodup)
    (hfind : find_actor s i = some a)
    (hk : a.kind = Kind.monster) :
    (surrounded s a →
      i ∉ (monster_step s i).order ∧
      (find_actor (monster_step s i) i).map (fun b => b.delayCount)
        = some ((a.delayCount + 1) % a.delayF)) ∧
    (¬ surrounded s a → i ∈ s.order → i ∈ (monster_step s i).order) := by
  have haid : a.aid = i := find_actor_aid hfind
  constructor
  · intro hs
    have hdead := monster_is_dead_of_surrounded hfind hs
    unfold monster_step
    rw [hdead]
    dsimp only
    rw [if_pos rfl]
    have hfind1 : find_actor (remove_actor { s with classIsDead := true } i) i
        = some a := hfind
    rw [actor_delay_eval hfind1]
    dsimp only
    rw [find_actor_update_self_some
      (fun b => { b with delayCount := (a.delayCount + 1) % a.delayF })
      (fun b => rfl) hfind1]
    dsimp only
    have horder2 :
        (update_actor (remove_actor { s with classIsDead := true } i) i
          (fun b => { b with delayCount := (a.delayCount + 1) % a.delayF })).order
        = s.order.erase i := rfl
    have hnotmem : i ∉ s.order.erase i := by
      intro hmem
      exact ((List.Nodup.mem_erase_iff horder).1 hmem).1 rfl
    split
    · constructor
      · rw [horder2]
        exact hnotmem
      · rw [find_actor_update_self_some
          (fun b => { b with delayCount := (a.delayCount + 1) % a.delayF })
          (fun b => rfl) hfind1]
        rfl
    · have hpool2 : ((update_actor (remove_actor { s with classIsDead := true } i) i
          (fun b => { b with delayCount := (a.delayCount + 1) % a.delayF })).pool.map
            (fun b => b.aid)).Nodup := by
        rw [update_actor_pool_aids _ _
          (fun b => { b with delayCount := (a.delayCount + 1) % a.delayF })
          (fun b => rfl)]
        exact hpool
      have hself2 : find_actor
          (update_actor (remove_actor { s with classIsDead := true } i) i
            (fun b => { b with delayCount := (a.delayCount + 1) % a.delayF })) i
          = some { a with delayCount := (a.delayCount + 1) % a.delayF } :=
        find_actor_update_self_some
          (fun b => { b with delayCount := (a.delayCount + 1) % a.delayF })
          (fun b => rfl) hfind1
      obtain ⟨⟨b, hb, hbk, hbc, hbs⟩, horder3⟩ := monster_move_self_effects _
        { a with delayCount := (a.delayCount + 1) % a.delayF } i
        ({ a with delayCount := (a.delayCount + 1) % a.delayF } : Actor).hdx
        ({ a with delayCount := (a.delayCount + 1) % a.delayF } : Actor).hdy
        haid.symm hpool2 hself2 hk
      constructor
      · rcases horder3 with h | ⟨r, _, h⟩
        · rw [h, horder2]
          exact hnotmem
        · rw [h, horder2]
          intro hmem
          exact hnotmem (List.mem_of_mem_erase hmem)
      · rw [hb]
        exact congrArg some hbc
  · intro hns hmem
    have hdead := monster_is_dead_of_not_surrounded hfind hns
    unfold monster_step
    rw [hdead]
    dsimp only
    rw [if_neg Bool.false_ne_true]
    rw [actor_delay_eval hfind]
    dsimp only
    rw [find_actor_update_self_some
      (fun b => { b with delayCount := (a.delayCount + 1) % a.delayF })
      (fun b => rfl) hfind]
    dsimp only
    split
    · exact hmem
    · have hpool2 : ((update_actor s i
          (fun b => { b with delayCount := (a.delayCount + 1) % a.delayF })).pool.map
            (fun b => b.aid)).Nodup := by
        rw [update_actor_pool_aids _ _
          (fun b => { b with delayCount := (a.delayCount + 1) % a.delayF })
          (fun b => rfl)]
        exact hpool
      have hself2 : find_actor
          (update_actor s i
            (fun b => { b with delayCount := (a.delayCount + 1) % a.delayF })) i
          = some { a with delayCount := (a.delayCount + 1) % a.delayF } :=
        find_actor_update_self_some
          (fun b => { b with delayCount := (a.delayCount + 1) % a.delayF })
          (fun b => rfl) hfind
      obtain ⟨⟨b, hb, hbk, hbc, hbs⟩, horder3⟩ := monster_move_self_effects _
        { a with delayCount := (a.delayCount + 1) % a.delayF } i
        ({ a with delayCount := (a.delayCount + 1) % a.delayF } : Actor).hdx
        ({ a with delayCount := (a.delayCount + 1) % a.delayF } : Actor).hdy
        haid.symm hpool2 hself2 hk
      rcases horder3 with h | ⟨r, hr, h⟩
      · rw [h]
        exact hmem
      · rw [h]
        rw [update_actor_order]
        exact (List.mem_erase_of_ne (Ne.symm hr)).2 hmem

/-- The C7 stage: monster 0 at `(5, 5)` with delay factor 5 and counter 0,
ringed by the eight boxes 2–9. -/
def c7_stage : Stage :=
  { width := 10, height := 10,
    pool := [{ aid := 0, kind := Kind.monster, x := 5, y := 5, delayF := 5 },
             boxAt 2 4 4, boxAt 3 5 4, boxAt 4 6 4, boxAt 5 4 5,
             boxAt 6 6 5, boxAt 7 4 6, boxAt 8 5 6, boxAt 9 6 6],
    order := [0, 2, 3, 4, 5, 6, 7, 8, 9] }

/-- Counterexample for C7's "no further processing" conjunct: the surrounded
monster of `c7_stage` (delay counter 0) is indeed removed by the next
`Stage.step`, but its delay counter is updated to 1 in that same tick —
`Monster.step` keeps executing after `remove_actor`, so the "no delay
update, no movement attempt" part of the claim is false at this input. -/
theorem c7_counterexample :
    0 ∉ (stage_step 20 c7_stage).order ∧
    ¬ ((find_actor (stage_step 20 c7_stage) 0).map (fun b => b.delayCount)
        = some 0) := by
  constructor
  · decide
  · decide

/-- Witness for the amended C7 theorem at the concrete stage `c7_stage`. -/
theorem c7_witness :
    (surrounded c7_stage
        { aid := 0, kind := Kind.monster, x := 5, y := 5, delayF := 5 } →
      0 ∉ (monster_step c7_stage 0).order ∧
      (find_actor (monster_step c7_stage 0) 0).map (fun b => b.delayCount)
        = some 1) ∧
    (¬ surrounded c7_stage
        { aid := 0, kind := Kind.monster, x := 5, y := 5, delayF := 5 } →
      0 ∈ c7_stage.order → 0 ∈ (monster_step c7_stage 0).order) :=
  c7_encirclement_death c7_stage 0
    { aid := 0, kind := Kind.monster, x := 5, y := 5, delayF := 5 }
    (by decide) (by decide) rfl rfl

/-! ## C8: the player walking into a monster -/

/-- Evaluation of `KeyboardPlayer.move` when the destination holds a
`Monster`: the player sets its own `is_dead` attribute, removes itself from
the stage, and the method still returns `True`. -/
theorem player_move_into_monster (recur : MoveFn) (s : Stage) (a occ : Actor)
    (oid : Nat) (dx dy : Int)
    (hocc : get_actor s (a.x + dx) (a.y + dy) = some occ)
    (hkocc : occ.kind = Kind.monster) :
    player_move recur s a oid dx dy =
      (some true, remove_actor
        (update_actor s a.aid (fun b => { b with isDeadAttr := true })) a.aid) := by
  unfold player_move
  dsimp only
  rw [hocc]
  simp [isMonsterInstance, hkocc]

/-- C8: CONFIRMED.  When the player's buffered event decodes to a direction
whose destination cell holds a `Monster`, the step kills the player: its
`is_dead` instance attribute becomes `True`, it is removed from the
`_actors` list (so no subsequent `get_actor` lookup can return it), its
stored position is unchanged, and the whole resolution is an ordinary
total-function evaluation (no exception). -/
theorem c8_player_killed_by_monster (fuel : Nat) (s : Stage) (i : Nat)
    (a occ : Actor) (e dx dy : Int)
    (hfuel : 1 ≤ fuel)
    (horder : s.order.Nodup)
    (hfind : find_actor s i = some a) (hk : a.kind = Kind.player)
    (hev : a.lastEvent = some e) (hdec : decodeKey e = some (dx, dy))
    (hocc : get_actor s (a.x + dx) (a.y + dy) = some occ)
    (hkocc : occ.kind = Kind.monster) :
    ∃ b, find_actor (player_step fuel s i) i = some b ∧
      b.isDeadAttr = true ∧ b.x = a.x ∧ b.y = a.y ∧
      i ∉ (player_step fuel s i).order ∧
      (∀ X Y o, get_actor (player_step fuel s i) X Y = some o → o.aid ≠ i) := by
  obtain ⟨f, rfl⟩ : ∃ f, fuel = f + 1 := ⟨fuel - 1, by omega⟩
  have haid : a.aid = i := find_actor_aid hfind
  have hmove : moveActor (f + 1) s i i dx dy =
      (some true, remove_actor
        (update_actor s i (fun b => { b with isDeadAttr := true })) i) := by
    unfold moveActor
    rw [hfind]
    dsimp only
    rw [hk]
    dsimp only
    rw [player_move_into_monster (moveActor f) s a occ i dx dy hocc hkocc, haid]
  have hstep : player_step (f + 1) s i =
      update_actor (remove_actor
        (update_actor s i (fun b => { b with isDeadAttr := true })) i) i
        (fun b => { b with lastEvent := none }) := by
    unfold player_step
    rw [hfind]
    dsimp only
    rw [hev]
    dsimp only
    rw [hdec]
    dsimp only
    rw [hmove]
  rw [hstep]
  have hfind2 : find_actor (remove_actor
      (update_actor s i (fun b => { b with isDeadAttr := true })) i) i
      = some { a with isDeadAttr := true } := by
    rw [find_actor_remove]
    exact find_actor_update_self_some
      (fun b => { b with isDeadAttr := true }) (fun b => rfl) hfind
  have hfind3 : find_actor (update_actor (remove_actor
      (update_actor s i (fun b => { b with isDeadAttr := true })) i) i
        (fun b => { b with lastEvent := none })) i
      = some { a with isDeadAttr := true, lastEvent := none } :=
    find_actor_update_self_some
      (fun b => { b with lastEvent := none }) (fun b => rfl) hfind2
  have horder2 : (update_actor (remove_actor
      (update_actor s i (fun b => { b with isDeadAttr := true })) i) i
        (fun b => { b with lastEvent := none })).order = s.order.erase i := rfl
  have hnotmem : i ∉ s.order.erase i := by
    intro hmem
    exact ((List.Nodup.mem_erase_iff horder).1 hmem).1 rfl
  refine ⟨{ a with isDeadAttr := true, lastEvent := none }, hfind3, rfl, rfl, rfl,
    ?_, ?_⟩
  · rw [horder2]
    exact hnotmem
  · intro X Y o ho hoaid
    have hmem := get_actor_aid_mem_order ho
    rw [horder2, hoaid] at hmem
    exact hnotmem hmem

/-! ## The movement protocol never creates or destroys objects -/

theorem actor_move_by_pool_aids (s : Stage) (i : Nat) (dx dy : Int) :
    ((actor_move_by s i dx dy).pool.map (fun a => a.aid))
      = s.pool.map (fun a => a.aid) :=
  update_actor_pool_aids s i _ (fun a => rfl)

theorem remove_actor_pool (s : Stage) (i : Nat) :
    (remove_actor s i).pool = s.pool := rfl

theorem box_move_pool_aids (recur : MoveFn)
    (hrec : ∀ s i o dx dy, ((recur s i o dx dy).2.pool.map (fun a => a.aid))
      = s.pool.map (fun a => a.aid))
    (s : Stage) (self : Actor) (oid : Nat) (dx dy : Int) :
    ((box_move recur s self oid dx dy).2.pool.map (fun a => a.aid))
      = s.pool.map (fun a => a.aid) := by
  unfold box_move
  dsimp only
  split
  · exact actor_move_by_pool_aids s self.aid dx dy
  · split
    · split
      · split
        · rw [actor_move_by_pool_aids, hrec]
        · rw [hrec]
      · rfl
    · rfl

theorem sticky_move_pool_aids (recur : MoveFn)
    (hrec : ∀ s i o dx dy, ((recur s i o dx dy).2.pool.map (fun a => a.aid))
      = s.pool.map (fun a => a.aid))
    (s : Stage) (self : Actor) (oid : Nat) (dx dy : Int) :
    ((sticky_move recur s self oid dx dy).2.pool.map (fun a => a.aid))
      = s.pool.map (fun a => a.aid) := by
  unfold sticky_move
  dsimp only
  split
  · split
    · split
      · rw [update_actor_pool_aids _ _ (fun a => { a with insideSticky := true })
          (fun a => rfl), actor_move_by_pool_aids]
      · rw [actor_move_by_pool_aids]
    · exact box_move_pool_aids recur hrec s self oid dx dy
  · exact box_move_pool_aids recur hrec s self oid dx dy

theorem player_move_pool_aids (recur : MoveFn)
    (hrec : ∀ s i o dx dy, ((recur s i o dx dy).2.pool.map (fun a => a.aid))
      = s.pool.map (fun a => a.aid))
    (s : Stage) (self : Actor) (oid : Nat) (dx dy : Int) :
    ((player_move recur s self oid dx dy).2.pool.map (fun a => a.aid))
      = s.pool.map (fun a => a.aid) := by
  unfold player_move
  dsimp only
  split
  · exact actor_move_by_pool_aids s self.aid dx dy
  · split
    · split
      · rw [remove_actor_pool, update_actor_pool_aids _ _
          (fun a => { a with isDeadAttr := true }) (fun a => rfl)]
      · split
        · split
          · rw [actor_move_by_pool_aids, hrec]
          · rw [hrec]
        · rfl
    · rfl

theorem monster_bounce_pool_aids (t : Stage) (i : Nat) (b : Bool)
    (nx ny dx dy : Int) :
    ((monster_bounce t i b nx ny dx dy).2.pool.map (fun a => a.aid))
      = t.pool.map (fun a => a.aid) := by
  unfold monster_bounce
  dsimp only
  split
  · split
    · rw [update_actor_pool_aids _ _ (fun a => { a with hdy := -a.hdy }) (fun a => rfl),
        update_actor_pool_aids _ _ (fun a => { a with hdx := -a.hdx }) (fun a => rfl)]
    · rw [actor_move_by_pool_aids,
        update_actor_pool_aids _ _ (fun a => { a with hdx := -a.hdx }) (fun a => rfl)]
  · split
    · rw [update_actor_pool_aids _ _ (fun a => { a with hdy := -a.hdy }) (fun a => rfl)]
    · rw [actor_move_by_pool_aids]

theorem monster_move_pool_aids (s : Stage) (self : Actor) (oid : Nat)
    (dx dy : Int) :
    ((monster_move s self oid dx dy).2.pool.map (fun a => a.aid))
      = s.pool.map (fun a => a.aid) := by
  unfold monster_move
  dsimp only
  split
  · rfl
  · have h0 : (monster_is_dead s self.aid).2.pool = s.pool :=
      monster_is_dead_pool s self.aid
    split
    · rw [h0]
    · split
      · split
        · rw [monster_bounce_pool_aids, update_actor_pool_aids _ _
            (fun a => { a with isDeadAttr := true }) (fun a => rfl),
            remove_actor_pool, h0]
        · rw [monster_bounce_pool_aids, h0]
      · rw [monster_bounce_pool_aids, h0]

theorem moveActor_pool_aids : ∀ (fuel : Nat) (s : Stage) (i o : Nat) (dx dy : Int),
    ((moveActor fuel s i o dx dy).2.pool.map (fun a => a.aid))
      = s.pool.map (fun a => a.aid) := by
  intro fuel
  induction fuel with
  | zero => intro s i o dx dy; rfl
  | succ f ih =>
    intro s i o dx dy
    unfold moveActor
    cases hfind : find_actor s i with
    | none => rfl
    | some a =>
      dsimp only
      cases a.kind with
      | box => exact box_move_pool_aids (moveActor f) ih s a o dx dy
      | sticky => exact sticky_move_pool_aids (moveActor f) ih s a o dx dy
      | monster => exact monster_move_pool_aids s a o dx dy
      | player => exact player_move_pool_aids (moveActor f) ih s a o dx dy
      | wall => exact actor_move_by_pool_aids s a.aid dx dy

theorem find_actor_isSome_iff (s : Stage) (i : Nat) :
    (find_actor s i).isSome = true ↔ i ∈ s.pool.map (fun a => a.aid) := by
  unfold find_actor
  rw [List.find?_isSome]
  constructor
  · rintro ⟨x, hx, hpx⟩
    simp only [beq_iff_eq] at hpx
    exact hpx ▸ List.mem_map_of_mem _ hx
  · intro h
    obtain ⟨x, hx, hxi⟩ := List.mem_map.1 h
    exact ⟨x, hx, by simp [hxi]⟩

/-- The C8 witness stage: the player at `(0, 0)` with buffered key `c`
(code 99, direction `(1, 1)`) and a monster at `(1, 1)`. -/
def c8_stage : Stage :=
  { width := 5, height := 5,
    pool := [{ aid := 0, kind := Kind.player, x := 0, y := 0, lastEvent := some 99 },
             { aid := 1, kind := Kind.monster, x := 1, y := 1 }],
    order := [0, 1] }

/-- Witness for C8 at the concrete stage `c8_stage`. -/
theorem c8_witness :
    ∃ b, find_actor (player_step 1 c8_stage 0) 0 = some b ∧
      b.isDeadAttr = true ∧ b.x = 0 ∧ b.y = 0 ∧
      0 ∉ (player_step 1 c8_stage 0).order ∧
      (∀ X Y o, get_actor (player_step 1 c8_stage 0) X Y = some o → o.aid ≠ 0) :=
  c8_player_killed_by_monster 1 c8_stage 0
    { aid := 0, kind := Kind.player, x := 0, y := 0, lastEvent := some 99 }
    { aid := 1, kind := Kind.monster, x := 1, y := 1 } 99 1 1
    (by decide) (by decide) rfl rfl rfl rfl rfl rfl

/-! ## C9: the single-slot intent buffer -/

theorem update_actor_update_actor (s : Stage) (i : Nat) (f g : Actor → Actor)
    (hf : ∀ a, (f a).aid = a.aid) :
    update_actor (update_actor s i f) i g = update_actor s i (fun a => g (f a)) := by
  unfold update_actor
  simp only [List.map_map]
  have hcomp : ((fun a => if a.aid == i then g a else a) ∘
      fun a => if a.aid == i then f a else a)
      = (fun a => if a.aid == i then g (f a) else a) := by
    funext a
    by_cases h : a.aid = i
    · simp [h, hf]
    · simp [h]
  rw [hcomp]

theorem handle_event_handle_event (s : Stage) (i : Nat) (e1 e2 : Int) :
    handle_event (handle_event s i e1) i e2 = handle_event s i e2 := by
  unfold handle_event
  rw [update_actor_update_actor s i (fun a => { a with lastEvent := some e1 })
    (fun a => { a with lastEvent := some e2 }) (fun a => rfl)]

/-- C9: CONFIRMED.  (1) Delivering any sequence of events followed by a last
event `e` leaves the stage exactly as if only `e` had been delivered: the
buffer is a single overwritten slot, so only the last event can ever be
acted on.  (2) After any `KeyboardPlayer.step`, the buffered event is
`None` — the buffer is cleared even when the event was not a movement key
or the attempted move failed, so no event is acted on twice. -/
theorem c9_intent_last_write_wins_and_consumed (fuel : Nat) (s : Stage)
    (i : Nat) (es : List Int) (e : Int) :
    (List.foldl (fun t ev => handle_event t i ev) s (es ++ [e])
      = handle_event s i e) ∧
    (∀ a, find_actor s i = some a →
      ∃ b, find_actor (player_step fuel s i) i = some b ∧ b.lastEvent = none) := by
  constructor
  · induction es generalizing s with
    | nil => rfl
    | cons ev es ih =>
      show List.foldl (fun t ev => handle_event t i ev)
        (handle_event s i ev) (es ++ [e]) = handle_event s i e
      rw [ih (handle_event s i ev), handle_event_handle_event]
  · intro a hfind
    unfold player_step
    rw [hfind]
    dsimp only
    cases hev : a.lastEvent with
    | none =>
      dsimp only
      exact ⟨a, hfind, hev⟩
    | some e0 =>
      dsimp only
      cases hdec : decodeKey e0 with
      | none =>
        dsimp only
        exact ⟨{ a with lastEvent := none },
          find_actor_update_self_some (fun b => { b with lastEvent := none })
            (fun b => rfl) hfind, rfl⟩
      | some d =>
        dsimp only
        have hsome : (find_actor (moveActor fuel s i i d.1 d.2).2 i).isSome = true := by
          rw [find_actor_isSome_iff, moveActor_pool_aids, ← find_actor_isSome_iff,
            hfind]
          rfl
        obtain ⟨b0, hb0⟩ := Option.isSome_iff_exists.1 hsome
        exact ⟨{ b0 with lastEvent := none },
          find_actor_update_self_some (fun b => { b with lastEvent := none })
            (fun b => rfl) hb0, rfl⟩

/-- The C9 witness stage: a player alone at `(0, 0)`. -/
def c9_stage : Stage :=
  { width := 5, height := 5,
    pool := [{ aid := 0, kind := Kind.player, x := 0, y := 0 }],
    order := [0] }

/-- Witness for C9 at the concrete stage `c9_stage`: key `s` then key `d`
then key `w` collapse to just key `w`, and a step leaves an empty buffer. -/
theorem c9_witness :
    (List.foldl (fun t ev => handle_event t 0 ev) c9_stage ([115, 100] ++ [119])
      = handle_event c9_stage 0 119) ∧
    (∀ a, find_actor c9_stage 0 = some a →
      ∃ b, find_actor (player_step 1 c9_stage 0) 0 = some b ∧ b.lastEvent = none) :=
  c9_intent_last_write_wins_and_consumed 1 c9_stage 0 [115, 100] 119

/-! ## C3: atomic depth-first push chains -/

/-- A chain of `n` plain boxes with consecutive ids starting at `b`, at the
cells `(x, y)`, `(x + dx, y + dy)`, `(x + 2dx, y + 2dy)`, ... -/
def chainBoxes (b : Nat) (x y dx dy : Int) : Nat → List Actor
  | 0 => []
  | n + 1 =>
    { aid := b, kind := Kind.box, x := x, y := y } ::
      chainBoxes (b + 1) (x + dx) (y + dy) dx dy n

/-- A stage whose `_actors` list is exactly `l` (ids in list order, one pool
entry per listed actor). -/
def alignedStage (W H : Int) (l : List Actor) : Stage :=
  { width := W, height := H, pool := l, order := l.map (fun a => a.aid) }

/-- A `Wall` for concrete scenarios. -/
def wallAt (i : Nat) (x y : Int) : Actor :=
  { aid := i, kind := Kind.wall, x := x, y := y }

theorem find_actor_aligned (W H : Int) (l : List Actor) (j : Nat) :
    find_actor (alignedStage W H l) j = l.find? (fun a => a.aid == j) := rfl

theorem filterMap_find_ids : ∀ (l : List Actor),
    ((l.map (fun a => a.aid)).Nodup) →
    (l.map (fun a => a.aid)).filterMap
      (fun j => l.find? (fun a => a.aid == j)) = l := by
  intro l
  induction l with
  | nil => intro _; rfl
  | cons a t ih =>
    intro hnd
    simp only [List.map_cons, List.nodup_cons] at hnd
    obtain ⟨hna, hnt⟩ := hnd
    rw [List.map_cons, List.filterMap_cons]
    have hfa : (a :: t).find? (fun b => b.aid == a.aid) = some a := by
      rw [List.find?_cons_of_pos]
      simp
    rw [hfa]
    have hco : (t.map (fun a => a.aid)).filterMap
        (fun j => (a :: t).find? (fun b => b.aid == j))
        = (t.map (fun a => a.aid)).filterMap
          (fun j => t.find? (fun b => b.aid == j)) := by
      apply List.filterMap_congr
      intro j hj
      rw [List.find?_cons_of_neg]
      simp only [beq_iff_eq]
      intro hcontra
      exact hna (hcontra ▸ hj)
    rw [hco, ih hnt]

theorem actors_list_aligned (W H : Int) (l : List Actor)
    (h : (l.map (fun a => a.aid)).Nodup) :
    actors_list (alignedStage W H l) = l :=
  filterMap_find_ids l h

theorem get_actor_aligned (W H : Int) (l : List Actor) (X Y : Int)
    (h : (l.map (fun a => a.aid)).Nodup) :
    get_actor (alignedStage W H l) X Y
      = l.find? (fun a => a.x == X && a.y == Y) := by
  unfold get_actor
  rw [actors_list_aligned W H l h]

theorem update_actor_aligned (W H : Int) (l : List Actor) (i : Nat)
    (f : Actor → Actor) (hf : ∀ a, (f a).aid = a.aid) :
    update_actor (alignedStage W H l) i f
      = alignedStage W H (l.map (fun a => if a.aid == i then f a else a)) := by
  unfold update_actor alignedStage
  congr 1
  rw [List.map_map]
  symm
  apply List.map_congr_left
  intro a _
  by_cases h : a.aid = i
  · simp [h, hf]
  · simp [h]

/-- Elements of a box chain, described by their index in the chain. -/
theorem mem_chainBoxes (dx dy : Int) : ∀ (n : Nat) (b : Nat) (x y : Int)
    (a : Actor), a ∈ chainBoxes b x y dx dy n ↔
    ∃ k : Nat, k < n ∧
      a = { aid := b + k, kind := Kind.box, x := x + k * dx, y := y + k * dy } := by
  intro n
  induction n with
  | zero =>
    intro b x y a
    simp [chainBoxes]
  | succ n ih =>
    intro b x y a
    unfold chainBoxes
    rw [List.mem_cons, ih (b + 1) (x + dx) (y + dy)]
    constructor
    · rintro (rfl | ⟨k, hk, rfl⟩)
      · exact ⟨0, Nat.succ_pos n, by simp⟩
      · refine ⟨k + 1, by omega, ?_⟩
        have h1 : b + 1 + k = b + (k + 1) := by omega
        have h2 : x + dx + (k : Int) * dx = x + ((k + 1 : Nat) : Int) * dx := by
          push_cast
          ring
        have h3 : y + dy + (k : Int) * dy = y + ((k + 1 : Nat) : Int) * dy := by
          push_cast
          ring
        rw [h1, h2, h3]
    · rintro ⟨k, hk, rfl⟩
      cases k with
      | zero => exact Or.inl (by simp)
      | succ k =>
        right
        refine ⟨k, by omega, ?_⟩
        have h1 : b + (k + 1) = b + 1 + k := by omega
        have h2 : x + ((k + 1 : Nat) : Int) * dx = x + dx + (k : Int) * dx := by
          push_cast
          ring
        have h3 : y + ((k + 1 : Nat) : Int) * dy = y + dy + (k : Int) * dy := by
          push_cast
          ring
        rw [h1, h2, h3]

theorem chainBoxes_aid_bound (dx dy : Int) {n b : Nat} {x y : Int} {a : Actor}
    (h : a ∈ chainBoxes b x y dx dy n) : b ≤ a.aid ∧ a.aid < b + n := by
  obtain ⟨k, hk, rfl⟩ := (mem_chainBoxes dx dy n b x y a).1 h
  constructor
  · exact Nat.le_add_right b k
  · simpa using hk

theorem chainBoxes_map_aid_eq (dx dy : Int) : ∀ (n b : Nat) (x y x' y' : Int),
    (chainBoxes b x y dx dy n).map (fun a => a.aid)
      = (chainBoxes b x' y' dx dy n).map (fun a => a.aid) := by
  intro n
  induction n with
  | zero => intro b x y x' y'; rfl
  | succ n ih =>
    intro b x y x' y'
    unfold chainBoxes
    simp only [List.map_cons]
    rw [ih (b + 1) (x + dx) (y + dy) (x' + dx) (y' + dy)]

/-- Two cells on the same ray differ when the multiplier is nonzero. -/
theorem mul_shift_ne (dx dy : Int) (hd : ¬(dx = 0 ∧ dy = 0)) (c : Int)
    (hc : c ≠ 0) {x y x' y' : Int} (hx : x' = x + c * dx) (hy : y' = y + c * dy) :
    ¬(x = x' ∧ y = y') := by
  rintro ⟨h1, h2⟩
  subst hx hy
  apply hd
  constructor
  · have h3 : c * dx = 0 := by linarith
    rcases mul_eq_zero.1 h3 with h | h
    · exact absurd h hc
    · exact h
  · have h3 : c * dy = 0 := by linarith
    rcases mul_eq_zero.1 h3 with h | h
    · exact absurd h hc
    · exact h

theorem pos_pair_pred_eq_false {x1 y1 X Y : Int} (h : ¬(x1 = X ∧ y1 = Y)) :
    (x1 == X && y1 == Y) = false := by
  by_cases h1 : x1 = X
  · by_cases h2 : y1 = Y
    · exact absurd ⟨h1, h2⟩ h
    · simp [h2]
  · simp [h1]

theorem pos_pred_eq_false {a : Actor} {X Y : Int} (h : ¬(a.x = X ∧ a.y = Y)) :
    (a.x == X && a.y == Y) = false :=
  pos_pair_pred_eq_false h

theorem find?_pos_eq_none {l : List Actor} {X Y : Int}
    (h : ∀ a ∈ l, ¬(a.x = X ∧ a.y = Y)) :
    l.find? (fun a => a.x == X && a.y == Y) = none :=
  List.find?_eq_none.2 (fun a ha => by simp [pos_pred_eq_false (h a ha)])

theorem find_actor_pre_chain (W H : Int) (pre rest : List Actor) (hd0 : Actor)
    (hnd : ((pre ++ hd0 :: rest).map (fun a => a.aid)).Nodup) :
    find_actor (alignedStage W H (pre ++ hd0 :: rest)) hd0.aid = some hd0 := by
  rw [find_actor_aligned, List.find?_append]
  have hpre : pre.find? (fun a => a.aid == hd0.aid) = none := by
    apply List.find?_eq_none.2
    intro a ha
    simp only [beq_iff_eq]
    intro hcontra
    rw [List.map_append, List.nodup_append] at hnd
    exact hnd.2.2 (List.mem_map_of_mem _ ha)
      (hcontra ▸ List.mem_map_of_mem (fun a => a.aid) (List.mem_cons_self hd0 rest))
  rw [hpre]
  simp [List.find?_cons_of_pos]

/-- Updating the head of a `pre ++ hd0 :: tail` list whose other members
have different ids only rewrites `hd0`. -/
theorem map_update_split (pre tail : List Actor) (hd0 : Actor)
    (f : Actor → Actor)
    (hpre : ∀ a ∈ pre, a.aid ≠ hd0.aid) (htail : ∀ a ∈ tail, a.aid ≠ hd0.aid) :
    (pre ++ hd0 :: tail).map (fun a => if a.aid == hd0.aid then f a else a)
      = pre ++ f hd0 :: tail := by
  rw [List.map_append, List.map_cons]
  have h1 : pre.map (fun a => if a.aid == hd0.aid then f a else a) = pre := by
    conv_rhs => rw [← List.map_id pre]
    apply List.map_congr_left
    intro a ha
    simp [hpre a ha]
  have h2 : tail.map (fun a => if a.aid == hd0.aid then f a else a) = tail := by
    conv_rhs => rw [← List.map_id tail]
    apply List.map_congr_left
    intro a ha
    simp [htail a ha]
  rw [h1, h2]
  simp

/-- Pushing a single box (chain length 1) into a free, in-bounds cell. -/
theorem chain_push_free_base (dx dy : Int) (hd : ¬(dx = 0 ∧ dy = 0))
    (f : Nat) (b : Nat) (x y : Int) (pre : List Actor) (W H : Int) (oid : Nat)
    (hnd : ((pre ++ chainBoxes b x y dx dy 1).map (fun a => a.aid)).Nodup)
    (hpre : ∀ a ∈ pre, ∀ k : Nat, 1 ≤ k → k ≤ 1 →
      ¬(a.x = x + (k : Int) * dx ∧ a.y = y + (k : Int) * dy))
    (hb : is_in_bounds (alignedStage W H (pre ++ chainBoxes b x y dx dy 1))
      (x + ((1 : Nat) : Int) * dx) (y + ((1 : Nat) : Int) * dy) = true) :
    moveActor (f + 1) (alignedStage W H (pre ++ chainBoxes b x y dx dy 1))
        b oid dx dy
      = (some true,
        alignedStage W H (pre ++ chainBoxes b (x + dx) (y + dy) dx dy 1)) := by
  have hfind : find_actor (alignedStage W H (pre ++ chainBoxes b x y dx dy 1)) b
      = some { aid := b, kind := Kind.box, x := x, y := y } :=
    find_actor_pre_chain W H pre [] { aid := b, kind := Kind.box, x := x, y := y }
      hnd
  have hpreb : ∀ a ∈ pre, a.aid ≠ b := by
    intro a ha hcontra
    rw [List.map_append, List.nodup_append] at hnd
    apply hnd.2.2 (List.mem_map_of_mem (fun a => a.aid) ha)
    rw [hcontra]
    show b ∈ List.map (fun a : Actor => a.aid) (chainBoxes b x y dx dy 1)
    exact List.mem_map_of_mem (fun a : Actor => a.aid)
      (List.mem_cons_self
        ({ aid := b, kind := Kind.box, x := x, y := y } : Actor) [])
  have hocc : get_actor (alignedStage W H (pre ++ chainBoxes b x y dx dy 1))
      (x + dx) (y + dy) = none := by
    rw [get_actor_aligned W H _ _ _ hnd]
    apply find?_pos_eq_none
    intro a ha
    rw [List.mem_append] at ha
    rcases ha with ha | ha
    · intro hcon
      exact hpre a ha 1 le_rfl le_rfl
        ⟨by rw [hcon.1]; push_cast; ring, by rw [hcon.2]; push_cast; ring⟩
    · obtain ⟨k, hk, rfl⟩ := (mem_chainBoxes dx dy 1 b x y _).1 ha
      have hk0 : k = 0 := by omega
      subst hk0
      exact mul_shift_ne dx dy hd 1 one_ne_zero
        (by push_cast; ring) (by push_cast; ring)
  have hb' : is_in_bounds (alignedStage W H (pre ++ chainBoxes b x y dx dy 1))
      (x + dx) (y + dy) = true := by
    have e1 : x + dx = x + ((1 : Nat) : Int) * dx := by push_cast; ring
    have e2 : y + dy = y + ((1 : Nat) : Int) * dy := by push_cast; ring
    rw [e1, e2]
    exact hb
  have hmove : actor_move_by
      (alignedStage W H (pre ++ chainBoxes b x y dx dy 1)) b dx dy
      = alignedStage W H (pre ++ chainBoxes b (x + dx) (y + dy) dx dy 1) := by
    unfold actor_move_by
    rw [update_actor_aligned W H (pre ++ chainBoxes b x y dx dy 1) b
      (fun a => { a with x := a.x + dx, y := a.y + dy }) (fun a => rfl)]
    congr 1
    exact map_update_split pre []
      { aid := b, kind := Kind.box, x := x, y := y }
      (fun a => { a with x := a.x + dx, y := a.y + dy })
      hpreb (by intro a ha; cases ha)
  unfold moveActor
  rw [hfind]
  dsimp only
  unfold box_move
  dsimp only
  rw [hocc, hb']
  simp only [Option.isNone_none, Bool.and_true, if_true]
  rw [hmove]

/-- Pushing the head of a free chain of `n + 1` boxes: the request recurses
through the whole chain and every box advances by one cell. -/
theorem chain_push_free (dx dy : Int) (hd : ¬(dx = 0 ∧ dy = 0)) :
    ∀ (n : Nat) (fuel : Nat) (b : Nat) (x y : Int) (pre : List Actor)
      (W H : Int) (oid : Nat),
      n + 1 ≤ fuel →
      ((pre ++ chainBoxes b x y dx dy (n + 1)).map (fun a => a.aid)).Nodup →
      (∀ a ∈ pre, ∀ k : Nat, 1 ≤ k → k ≤ n + 1 →
        ¬(a.x = x + (k : Int) * dx ∧ a.y = y + (k : Int) * dy)) →
      is_in_bounds (alignedStage W H (pre ++ chainBoxes b x y dx dy (n + 1)))
        (x + ((n + 1 : Nat) : Int) * dx) (y + ((n + 1 : Nat) : Int) * dy) = true →
      moveActor fuel (alignedStage W H (pre ++ chainBoxes b x y dx dy (n + 1)))
          b oid dx dy
        = (some true,
          alignedStage W H (pre ++ chainBoxes b (x + dx) (y + dy) dx dy (n + 1))) := by
  intro n
  induction n with
  | zero =>
    intro fuel b x y pre W H oid hfuel hnd hpre hb
    obtain ⟨f, rfl⟩ : ∃ f, fuel = f + 1 := ⟨fuel - 1, by omega⟩
    exact chain_push_free_base dx dy hd f b x y pre W H oid hnd hpre hb
  | succ t ih =>
    intro fuel b x y pre W H oid hfuel hnd hpre hb
    obtain ⟨f, rfl⟩ : ∃ f, fuel = f + 1 := ⟨fuel - 1, by omega⟩
    have hassoc : pre ++ chainBoxes b x y dx dy (t + 1 + 1)
        = (pre ++ [({ aid := b, kind := Kind.box, x := x, y := y } : Actor)]) ++
          chainBoxes (b + 1) (x + dx) (y + dy) dx dy (t + 1) :=
      List.append_cons pre _ _
    have hfind : find_actor
        (alignedStage W H (pre ++ chainBoxes b x y dx dy (t + 1 + 1))) b
        = some { aid := b, kind := Kind.box, x := x, y := y } :=
      find_actor_pre_chain W H pre
        (chainBoxes (b + 1) (x + dx) (y + dy) dx dy (t + 1))
        { aid := b, kind := Kind.box, x := x, y := y } hnd
    have hpreb : ∀ a ∈ pre, a.aid ≠ b := by
      intro a ha hcontra
      rw [List.map_append, List.nodup_append] at hnd
      apply hnd.2.2 (List.mem_map_of_mem (fun a => a.aid) ha)
      rw [hcontra]
      show b ∈ List.map (fun a : Actor => a.aid) (chainBoxes b x y dx dy (t + 1 + 1))
      exact List.mem_map_of_mem (fun a : Actor => a.aid)
        (List.mem_cons_self ({ aid := b, kind := Kind.box, x := x, y := y } : Actor) _)
    have hprec1 : ∀ a ∈ pre, ¬(a.x = x + dx ∧ a.y = y + dy) := by
      intro a ha hcon
      exact hpre a ha 1 le_rfl (by omega)
        ⟨by rw [hcon.1]; push_cast; ring, by rw [hcon.2]; push_cast; ring⟩
    have hchain2 : (chainBoxes b x y dx dy (t + 1 + 1)).find?
        (fun a => a.x == x + dx && a.y == y + dy)
        = some { aid := b + 1, kind := Kind.box, x := x + dx, y := y + dy } := by
      show (({ aid := b, kind := Kind.box, x := x, y := y } : Actor) ::
          ({ aid := b + 1, kind := Kind.box, x := x + dx, y := y + dy } : Actor) ::
            chainBoxes (b + 1 + 1) (x + dx + dx) (y + dy + dy) dx dy t).find?
          (fun a => a.x == x + dx && a.y == y + dy)
          = some { aid := b + 1, kind := Kind.box, x := x + dx, y := y + dy }
      rw [List.find?_cons_of_neg, List.find?_cons_of_pos]
      · simp
      · show ¬(x == x + dx && y == y + dy) = true
        rw [pos_pair_pred_eq_false
          (mul_shift_ne dx dy hd 1 one_ne_zero
            (show x + dx = x + 1 * dx by ring) (show y + dy = y + 1 * dy by ring))]
        simp
    have hoccur1 : get_actor
        (alignedStage W H (pre ++ chainBoxes b x y dx dy (t + 1 + 1)))
        (x + dx) (y + dy)
        = some { aid := b + 1, kind := Kind.box, x := x + dx, y := y + dy } := by
      rw [get_actor_aligned W H _ _ _ hnd, List.find?_append,
        find?_pos_eq_none hprec1, Option.none_or]
      exact hchain2
    have hfuel2 : t + 1 ≤ f := by omega
    have hnd2 : (((pre ++ [({ aid := b, kind := Kind.box, x := x, y := y } : Actor)]) ++
        chainBoxes (b + 1) (x + dx) (y + dy) dx dy (t + 1)).map
          (fun a => a.aid)).Nodup := by
      rw [← hassoc]
      exact hnd
    have hpre2 : ∀ a ∈ pre ++ [({ aid := b, kind := Kind.box, x := x, y := y } : Actor)],
        ∀ k : Nat, 1 ≤ k → k ≤ t + 1 →
        ¬(a.x = (x + dx) + (k : Int) * dx ∧ a.y = (y + dy) + (k : Int) * dy) := by
      intro a ha k hk1 hk2 hcon
      rw [List.mem_append, List.mem_singleton] at ha
      rcases ha with ha | rfl
      · exact hpre a ha (k + 1) (by omega) (by omega)
          ⟨by rw [hcon.1]; push_cast; ring, by rw [hcon.2]; push_cast; ring⟩
      · exact mul_shift_ne dx dy hd ((k : Int) + 1)
          (by positivity)
          (show (x + dx) + (k : Int) * dx = x + ((k : Int) + 1) * dx by ring)
          (show (y + dy) + (k : Int) * dy = y + ((k : Int) + 1) * dy by ring)
          ⟨hcon.1, hcon.2⟩
    have hb2 : is_in_bounds (alignedStage W H
        ((pre ++ [({ aid := b, kind := Kind.box, x := x, y := y } : Actor)]) ++
          chainBoxes (b + 1) (x + dx) (y + dy) dx dy (t + 1)))
        ((x + dx) + ((t + 1 : Nat) : Int) * dx)
        ((y + dy) + ((t + 1 : Nat) : Int) * dy) = true := by
      have e1 : (x + dx) + ((t + 1 : Nat) : Int) * dx
          = x + ((t + 1 + 1 : Nat) : Int) * dx := by push_cast; ring
      have e2 : (y + dy) + ((t + 1 : Nat) : Int) * dy
          = y + ((t + 1 + 1 : Nat) : Int) * dy := by push_cast; ring
      rw [e1, e2]
      exact hb
    have heq : moveActor f
        (alignedStage W H (pre ++ chainBoxes b x y dx dy (t + 1 + 1))) (b + 1) b dx dy
        = (some true, alignedStage W H
          ((pre ++ [({ aid := b, kind := Kind.box, x := x, y := y } : Actor)]) ++
            chainBoxes (b + 1) (x + dx + dx) (y + dy + dy) dx dy (t + 1))) := by
      rw [hassoc]
      exact ih f (b + 1) (x + dx) (y + dy)
        (pre ++ [({ aid := b, kind := Kind.box, x := x, y := y } : Actor)]) W H b
        hfuel2 hnd2 hpre2 hb2
    have hnd3 : (((pre ++ [({ aid := b, kind := Kind.box, x := x, y := y } : Actor)]) ++
        chainBoxes (b + 1) (x + dx + dx) (y + dy + dy) dx dy (t + 1)).map
          (fun a => a.aid)).Nodup := by
      rw [List.map_append,
        chainBoxes_map_aid_eq dx dy (t + 1) (b + 1) (x + dx + dx) (y + dy + dy)
          (x + dx) (y + dy),
        ← List.map_append]
      exact hnd2
    have hocc2 : get_actor (alignedStage W H
        ((pre ++ [({ aid := b, kind := Kind.box, x := x, y := y } : Actor)]) ++
          chainBoxes (b + 1) (x + dx + dx) (y + dy + dy) dx dy (t + 1)))
        (x + dx) (y + dy) = none := by
      rw [get_actor_aligned W H _ _ _ hnd3]
      apply find?_pos_eq_none
      intro a ha
      rw [List.mem_append, List.mem_append, List.mem_singleton] at ha
      rcases ha with (ha | rfl) | ha
      · exact hprec1 a ha
      · exact mul_shift_ne dx dy hd 1 one_ne_zero (by ring) (by ring)
      · obtain ⟨k, hk, rfl⟩ :=
          (mem_chainBoxes dx dy (t + 1) (b + 1) (x + dx + dx) (y + dy + dy) a).1 ha
        intro hcon
        dsimp only at hcon
        exact mul_shift_ne dx dy hd ((k : Int) + 1) (by positivity)
          (show (x + dx) + ((k : Int) + 1) * dx
            = (x + dx) + ((k : Int) + 1) * dx from rfl)
          (show (y + dy) + ((k : Int) + 1) * dy
            = (y + dy) + ((k : Int) + 1) * dy from rfl)
          ⟨by linear_combination -hcon.1, by linear_combination -hcon.2⟩
    have hmove2 : actor_move_by (alignedStage W H
        ((pre ++ [({ aid := b, kind := Kind.box, x := x, y := y } : Actor)]) ++
          chainBoxes (b + 1) (x + dx + dx) (y + dy + dy) dx dy (t + 1))) b dx dy
        = alignedStage W H
          (pre ++ chainBoxes b (x + dx) (y + dy) dx dy (t + 1 + 1)) := by
      unfold actor_move_by
      rw [update_actor_aligned W H _ b
        (fun a => { a with x := a.x + dx, y := a.y + dy }) (fun a => rfl)]
      congr 1
      rw [← List.append_cons pre { aid := b, kind := Kind.box, x := x, y := y } _]
      exact map_update_split pre _
        { aid := b, kind := Kind.box, x := x, y := y }
        (fun a => { a with x := a.x + dx, y := a.y + dy })
        hpreb
        (by
          intro a ha
          obtain ⟨h1, h2⟩ := chainBoxes_aid_bound dx dy ha
          show a.aid ≠ b
          omega)
    unfold moveActor
    rw [hfind]
    dsimp only
    unfold box_move
    dsimp only
    rw [hoccur1]
    simp only [Option.isNone_some, Bool.and_false]
    rw [if_neg Bool.false_ne_true]
    rw [if_pos (show isBoxInstance
      ({ aid := b + 1, kind := Kind.box, x := x + dx, y := y + dy } : Actor).kind
        = true from rfl)]
    rw [heq]
    dsimp only
    rw [hocc2, hmove2]

/-- Pushing the head of a chain of `n + 1` boxes whose far end is blocked
(out of bounds, or occupied by a non-box): the request fails and the stage
is returned unchanged — no box in the chain moves. -/
theorem chain_push_blocked (dx dy : Int) (hd : ¬(dx = 0 ∧ dy = 0)) :
    ∀ (n : Nat) (fuel : Nat) (b : Nat) (x y : Int) (pre post : List Actor)
      (W H : Int) (oid : Nat),
      n + 1 ≤ fuel →
      ((pre ++ chainBoxes b x y dx dy (n + 1) ++ post).map
        (fun a => a.aid)).Nodup →
      (∀ a ∈ pre, ∀ k : Nat, 1 ≤ k → k + 1 ≤ n + 1 →
        ¬(a.x = x + (k : Int) * dx ∧ a.y = y + (k : Int) * dy)) →
      ((get_actor (alignedStage W H (pre ++ chainBoxes b x y dx dy (n + 1) ++ post))
          (x + ((n + 1 : Nat) : Int) * dx) (y + ((n + 1 : Nat) : Int) * dy) = none ∧
        is_in_bounds (alignedStage W H (pre ++ chainBoxes b x y dx dy (n + 1) ++ post))
          (x + ((n + 1 : Nat) : Int) * dx) (y + ((n + 1 : Nat) : Int) * dy) = false) ∨
       (∃ occ, get_actor (alignedStage W H
            (pre ++ chainBoxes b x y dx dy (n + 1) ++ post))
          (x + ((n + 1 : Nat) : Int) * dx) (y + ((n + 1 : Nat) : Int) * dy)
            = some occ ∧
          isBoxInstance occ.kind = false)) →
      moveActor fuel
          (alignedStage W H (pre ++ chainBoxes b x y dx dy (n + 1) ++ post))
          b oid dx dy
        = (some false,
          alignedStage W H (pre ++ chainBoxes b x y dx dy (n + 1) ++ post)) := by
  intro n
  induction n with
  | zero =>
    intro fuel b x y pre post W H oid hfuel hnd hpre hfail
    obtain ⟨f, rfl⟩ : ∃ f, fuel = f + 1 := ⟨fuel - 1, by omega⟩
    have hassoc0 : pre ++ chainBoxes b x y dx dy 1 ++ post
        = pre ++ ({ aid := b, kind := Kind.box, x := x, y := y } : Actor) :: post :=
      List.append_assoc pre _ post
    rw [hassoc0] at hnd hfail ⊢
    have e1 : x + ((0 + 1 : Nat) : Int) * dx = x + dx := by push_cast; ring
    have e2 : y + ((0 + 1 : Nat) : Int) * dy = y + dy := by push_cast; ring
    rw [e1, e2] at hfail
    have hfind : find_actor (alignedStage W H
        (pre ++ ({ aid := b, kind := Kind.box, x := x, y := y } : Actor) :: post)) b
        = some { aid := b, kind := Kind.box, x := x, y := y } :=
      find_actor_pre_chain W H pre post
        { aid := b, kind := Kind.box, x := x, y := y } hnd
    unfold moveActor
    rw [hfind]
    dsimp only
    unfold box_move
    dsimp only
    rcases hfail with ⟨hnone, hoob⟩ | ⟨occ, hsome, hnotbox⟩
    · rw [hnone, hoob]
      simp
    · rw [hsome]
      simp only [Option.isNone_some, Bool.and_false]
      rw [if_neg Bool.false_ne_true, hnotbox]
      rw [if_neg Bool.false_ne_true]
  | succ t ih =>
    intro fuel b x y pre post W H oid hfuel hnd hpre hfail
    obtain ⟨f, rfl⟩ : ∃ f, fuel = f + 1 := ⟨fuel - 1, by omega⟩
    have hassoc0 : pre ++ chainBoxes b x y dx dy (t + 1 + 1) ++ post
        = pre ++ ({ aid := b, kind := Kind.box, x := x, y := y } : Actor) ::
          (chainBoxes (b + 1) (x + dx) (y + dy) dx dy (t + 1) ++ post) :=
      List.append_assoc pre _ post
    rw [hassoc0] at hnd hfail ⊢
    have hfind : find_actor (alignedStage W H
        (pre ++ ({ aid := b, kind := Kind.box, x := x, y := y } : Actor) ::
          (chainBoxes (b + 1) (x + dx) (y + dy) dx dy (t + 1) ++ post))) b
        = some { aid := b, kind := Kind.box, x := x, y := y } :=
      find_actor_pre_chain W H pre _
        { aid := b, kind := Kind.box, x := x, y := y } hnd
    have hprec1 : ∀ a ∈ pre, ¬(a.x = x + dx ∧ a.y = y + dy) := by
      intro a ha hcon
      exact hpre a ha 1 le_rfl (by omega)
        ⟨by rw [hcon.1]; push_cast; ring, by rw [hcon.2]; push_cast; ring⟩
    have hoccur1 : get_actor (alignedStage W H
        (pre ++ ({ aid := b, kind := Kind.box, x := x, y := y } : Actor) ::
          (chainBoxes (b + 1) (x + dx) (y + dy) dx dy (t + 1) ++ post)))
        (x + dx) (y + dy)
        = some { aid := b + 1, kind := Kind.box, x := x + dx, y := y + dy } := by
      rw [get_actor_aligned W H _ _ _ hnd, List.find?_append,
        find?_pos_eq_none hprec1, Option.none_or]
      show (({ aid := b, kind := Kind.box, x := x, y := y } : Actor) ::
          ({ aid := b + 1, kind := Kind.box, x := x + dx, y := y + dy } : Actor) ::
            (chainBoxes (b + 1 + 1) (x + dx + dx) (y + dy + dy) dx dy t ++ post)).find?
          (fun a => a.x == x + dx && a.y == y + dy)
          = some { aid := b + 1, kind := Kind.box, x := x + dx, y := y + dy }
      rw [List.find?_cons_of_neg, List.find?_cons_of_pos]
      · simp
      · show ¬(x == x + dx && y == y + dy) = true
        rw [pos_pair_pred_eq_false
          (mul_shift_ne dx dy hd 1 one_ne_zero
            (show x + dx = x + 1 * dx by ring) (show y + dy = y + 1 * dy by ring))]
        simp
    have hassocL : (pre ++ [({ aid := b, kind := Kind.box, x := x, y := y } : Actor)]) ++
        chainBoxes (b + 1) (x + dx) (y + dy) dx dy (t + 1) ++ post
        = pre ++ ({ aid := b, kind := Kind.box, x := x, y := y } : Actor) ::
          (chainBoxes (b + 1) (x + dx) (y + dy) dx dy (t + 1) ++ post) := by
      simp
    have hfuel2 : t + 1 ≤ f := by omega
    have hnd2 : (((pre ++ [({ aid := b, kind := Kind.box, x := x, y := y } : Actor)]) ++
        chainBoxes (b + 1) (x + dx) (y + dy) dx dy (t + 1) ++ post).map
          (fun a => a.aid)).Nodup := by
      rw [hassocL]
      exact hnd
    have hpre2 : ∀ a ∈ pre ++ [({ aid := b, kind := Kind.box, x := x, y := y } : Actor)],
        ∀ k : Nat, 1 ≤ k → k + 1 ≤ t + 1 →
        ¬(a.x = (x + dx) + (k : Int) * dx ∧ a.y = (y + dy) + (k : Int) * dy) := by
      intro a ha k hk1 hk2 hcon
      rw [List.mem_append, List.mem_singleton] at ha
      rcases ha with ha | rfl
      · exact hpre a ha (k + 1) (by omega) (by omega)
          ⟨by rw [hcon.1]; push_cast; ring, by rw [hcon.2]; push_cast; ring⟩
      · exact mul_shift_ne dx dy hd ((k : Int) + 1)
          (by positivity)
          (show (x + dx) + (k : Int) * dx = x + ((k : Int) + 1) * dx by ring)
          (show (y + dy) + (k : Int) * dy = y + ((k : Int) + 1) * dy by ring)
          ⟨hcon.1, hcon.2⟩
    have hfail2 : (get_actor (alignedStage W H
          ((pre ++ [({ aid := b, kind := Kind.box, x := x, y := y } : Actor)]) ++
            chainBoxes (b + 1) (x + dx) (y + dy) dx dy (t + 1) ++ post))
          ((x + dx) + ((t + 1 : Nat) : Int) * dx)
          ((y + dy) + ((t + 1 : Nat) : Int) * dy) = none ∧
        is_in_bounds (alignedStage W H
          ((pre ++ [({ aid := b, kind := Kind.box, x := x, y := y } : Actor)]) ++
            chainBoxes (b + 1) (x + dx) (y + dy) dx dy (t + 1) ++ post))
          ((x + dx) + ((t + 1 : Nat) : Int) * dx)
          ((y + dy) + ((t + 1 : Nat) : Int) * dy) = false) ∨
        (∃ occ, get_actor (alignedStage W H
          ((pre ++ [({ aid := b, kind := Kind.box, x := x, y := y } : Actor)]) ++
            chainBoxes (b + 1) (x + dx) (y + dy) dx dy (t + 1) ++ post))
          ((x + dx) + ((t + 1 : Nat) : Int) * dx)
          ((y + dy) + ((t + 1 : Nat) : Int) * dy) = some occ ∧
          isBoxInstance occ.kind = false) := by
      have e1 : (x + dx) + ((t + 1 : Nat) : Int) * dx
          = x + ((t + 1 + 1 : Nat) : Int) * dx := by push_cast; ring
      have e2 : (y + dy) + ((t + 1 : Nat) : Int) * dy
          = y + ((t + 1 + 1 : Nat) : Int) * dy := by push_cast; ring
      rw [e1, e2, hassocL]
      exact hfail
    have heq : moveActor f (alignedStage W H
        (pre ++ ({ aid := b, kind := Kind.box, x := x, y := y } : Actor) ::
          (chainBoxes (b + 1) (x + dx) (y + dy) dx dy (t + 1) ++ post)))
        (b + 1) b dx dy
        = (some false, alignedStage W H
          (pre ++ ({ aid := b, kind := Kind.box, x := x, y := y } : Actor) ::
            (chainBoxes (b + 1) (x + dx) (y + dy) dx dy (t + 1) ++ post))) := by
      rw [← hassocL]
      exact ih f (b + 1) (x + dx) (y + dy)
        (pre ++ [({ aid := b, kind := Kind.box, x := x, y := y } : Actor)]) post W H b
        hfuel2 hnd2 hpre2 hfail2
    unfold moveActor
    rw [hfind]
    dsimp only
    unfold box_move
    dsimp only
    rw [hoccur1]
    simp only [Option.isNone_some, Bool.and_false]
    rw [if_neg Bool.false_ne_true]
    rw [if_pos (show isBoxInstance
      ({ aid := b + 1, kind := Kind.box, x := x + dx, y := y + dy } : Actor).kind
        = true from rfl)]
    rw [heq]
    dsimp only
    rw [hoccur1]

theorem chainBoxes_aid_nodup (dx dy : Int) : ∀ (n b : Nat) (x y : Int),
    ((chainBoxes b x y dx dy n).map (fun a => a.aid)).Nodup := by
  intro n
  induction n with
  | zero => intro b x y; simp [chainBoxes]
  | succ n ih =>
    intro b x y
    unfold chainBoxes
    rw [List.map_cons, List.nodup_cons]
    constructor
    · intro hmem
      rw [List.mem_map] at hmem
      obtain ⟨a, ha, haid⟩ := hmem
      obtain ⟨h1, h2⟩ := chainBoxes_aid_bound dx dy ha
      simp only at haid
      omega
    · exact ih (b + 1) (x + dx) (y + dy)

theorem chainBoxes_find_final_none (dx dy : Int) (hd : ¬(dx = 0 ∧ dy = 0))
    (n b : Nat) (x y : Int) :
    (chainBoxes b x y dx dy n).find?
      (fun a => a.x == x + (n : Int) * dx && a.y == y + (n : Int) * dy)
      = none := by
  apply find?_pos_eq_none
  intro a ha
  obtain ⟨k, hk, rfl⟩ := (mem_chainBoxes dx dy n b x y a).1 ha
  intro hcon
  dsimp only at hcon
  exact mul_shift_ne dx dy hd ((n : Int) - (k : Int))
    (by omega)
    (show x + (n : Int) * dx = (x + (k : Int) * dx) + ((n : Int) - (k : Int)) * dx
      by ring)
    (show y + (n : Int) * dy = (y + (k : Int) * dy) + ((n : Int) - (k : Int)) * dy
      by ring)
    ⟨hcon.1, hcon.2⟩

/-- The C3 family of stages: a chain of `N` boxes (ids `0..N-1`) starting at
`(x, y)` with step `(dx, dy)`, optionally blocked by a `Wall` (id `N`) on
the cell immediately past the chain. -/
def c3_stage (W H x y dx dy : Int) (N : Nat) (blocked : Bool) : Stage :=
  alignedStage W H (chainBoxes 0 x y dx dy N ++
    (if blocked then [wallAt N (x + (N : Int) * dx) (y + (N : Int) * dy)] else []))

/-- C3: CONFIRMED.  A move request delivered to the head of a chain of `N`
consecutive boxes cascades depth-first through the whole chain: if the cell
immediately past the last box is in bounds and empty, the call returns
`True` and every box has advanced by exactly one cell; if that cell is
occupied by a non-box (here a `Wall`) or out of bounds, the call returns
`False` and the stage is returned unchanged — no box in the chain moves
(atomicity). -/
theorem c3_push_chain_atomic (W H x y dx dy : Int) (N fuel oid : Nat)
    (blocked : Bool) (hN : 1 ≤ N) (hfuel : N ≤ fuel) (hd : ¬(dx = 0 ∧ dy = 0)) :
    (blocked = false →
      is_in_bounds (c3_stage W H x y dx dy N blocked)
        (x + (N : Int) * dx) (y + (N : Int) * dy) = true →
      moveActor fuel (c3_stage W H x y dx dy N blocked) 0 oid dx dy
        = (some true, alignedStage W H (chainBoxes 0 (x + dx) (y + dy) dx dy N))) ∧
    (blocked = true ∨
      is_in_bounds (c3_stage W H x y dx dy N blocked)
        (x + (N : Int) * dx) (y + (N : Int) * dy) = false →
      moveActor fuel (c3_stage W H x y dx dy N blocked) 0 oid dx dy
        = (some false, c3_stage W H x y dx dy N blocked)) := by
  obtain ⟨n, rfl⟩ : ∃ n, N = n + 1 := ⟨N - 1, by omega⟩
  constructor
  · intro hbl hb
    subst hbl
    have hlist : chainBoxes 0 x y dx dy (n + 1) ++
        (if (false : Bool) then
          [wallAt (n + 1) (x + ((n + 1 : Nat) : Int) * dx)
            (y + ((n + 1 : Nat) : Int) * dy)] else [])
        = chainBoxes 0 x y dx dy (n + 1) := by simp
    unfold c3_stage at hb ⊢
    rw [hlist] at hb ⊢
    exact chain_push_free dx dy hd n fuel 0 x y [] W H oid hfuel
      (chainBoxes_aid_nodup dx dy (n + 1) 0 x y)
      (by intro a ha; cases ha)
      hb
  · intro hbl
    rcases hbl with hbl | hoob
    · subst hbl
      unfold c3_stage
      have hwall : (if (true : Bool) then
          [wallAt (n + 1) (x + ((n + 1 : Nat) : Int) * dx)
            (y + ((n + 1 : Nat) : Int) * dy)] else [])
          = [wallAt (n + 1) (x + ((n + 1 : Nat) : Int) * dx)
              (y + ((n + 1 : Nat) : Int) * dy)] := rfl
      rw [hwall]
      have hnd : ((chainBoxes 0 x y dx dy (n + 1) ++
          [wallAt (n + 1) (x + ((n + 1 : Nat) : Int) * dx)
            (y + ((n + 1 : Nat) : Int) * dy)]).map (fun a => a.aid)).Nodup := by
        rw [List.map_append, List.nodup_append]
        refine ⟨chainBoxes_aid_nodup dx dy (n + 1) 0 x y, List.nodup_singleton _, ?_⟩
        intro j hj hj2
        rw [List.mem_map] at hj
        obtain ⟨a, ha, rfl⟩ := hj
        obtain ⟨h1, h2⟩ := chainBoxes_aid_bound dx dy ha
        simp only [wallAt, List.map_cons, List.map_nil, List.mem_singleton] at hj2
        omega
      have hfail : get_actor (alignedStage W H (chainBoxes 0 x y dx dy (n + 1) ++
          [wallAt (n + 1) (x + ((n + 1 : Nat) : Int) * dx)
            (y + ((n + 1 : Nat) : Int) * dy)]))
          (x + ((n + 1 : Nat) : Int) * dx) (y + ((n + 1 : Nat) : Int) * dy)
          = some (wallAt (n + 1) (x + ((n + 1 : Nat) : Int) * dx)
            (y + ((n + 1 : Nat) : Int) * dy)) := by
        rw [get_actor_aligned W H _ _ _ hnd, List.find?_append,
          chainBoxes_find_final_none dx dy hd (n + 1) 0 x y, Option.none_or]
        rw [List.find?_cons_of_pos]
        simp [wallAt]
      exact chain_push_blocked dx dy hd n fuel 0 x y [] _ W H oid hfuel hnd
        (by intro a ha; cases ha)
        (Or.inr ⟨_, hfail, rfl⟩)
    · unfold c3_stage at hoob ⊢
      cases blocked with
      | true =>
        have hwall : (if (true : Bool) then
            [wallAt (n + 1) (x + ((n + 1 : Nat) : Int) * dx)
              (y + ((n + 1 : Nat) : Int) * dy)] else [])
            = [wallAt (n + 1) (x + ((n + 1 : Nat) : Int) * dx)
                (y + ((n + 1 : Nat) : Int) * dy)] := rfl
        rw [hwall] at hoob ⊢
        have hnd : ((chainBoxes 0 x y dx dy (n + 1) ++
            [wallAt (n + 1) (x + ((n + 1 : Nat) : Int) * dx)
              (y + ((n + 1 : Nat) : Int) * dy)]).map (fun a => a.aid)).Nodup := by
          rw [List.map_append, List.nodup_append]
          refine ⟨chainBoxes_aid_nodup dx dy (n + 1) 0 x y, List.nodup_singleton _, ?_⟩
          intro j hj hj2
          rw [List.mem_map] at hj
          obtain ⟨a, ha, rfl⟩ := hj
          obtain ⟨h1, h2⟩ := chainBoxes_aid_bound dx dy ha
          simp only [wallAt, List.map_cons, List.map_nil, List.mem_singleton] at hj2
          omega
        have hfail : get_actor (alignedStage W H (chainBoxes 0 x y dx dy (n + 1) ++
            [wallAt (n + 1) (x + ((n + 1 : Nat) : Int) * dx)
              (y + ((n + 1 : Nat) : Int) * dy)]))
            (x + ((n + 1 : Nat) : Int) * dx) (y + ((n + 1 : Nat) : Int) * dy)
            = some (wallAt (n + 1) (x + ((n + 1 : Nat) : Int) * dx)
              (y + ((n + 1 : Nat) : Int) * dy)) := by
          rw [get_actor_aligned W H _ _ _ hnd, List.find?_append,
            chainBoxes_find_final_none dx dy hd (n + 1) 0 x y, Option.none_or]
          rw [List.find?_cons_of_pos]
          simp [wallAt]
        exact chain_push_blocked dx dy hd n fuel 0 x y [] _ W H oid hfuel hnd
          (by intro a ha; cases ha)
          (Or.inr ⟨_, hfail, rfl⟩)
      | false =>
        have hlist : chainBoxes 0 x y dx dy (n + 1) ++
            (if (false : Bool) then
              [wallAt (n + 1) (x + ((n + 1 : Nat) : Int) * dx)
                (y + ((n + 1 : Nat) : Int) * dy)] else [])
            = chainBoxes 0 x y dx dy (n + 1) ++ ([] : List Actor) := by simp
        rw [hlist] at hoob ⊢
        have hnd : ((chainBoxes 0 x y dx dy (n + 1) ++ ([] : List Actor)).map
            (fun a => a.aid)).Nodup := by
          rw [List.append_nil]
          exact chainBoxes_aid_nodup dx dy (n + 1) 0 x y
        have hnone : get_actor (alignedStage W H
            (chainBoxes 0 x y dx dy (n + 1) ++ ([] : List Actor)))
            (x + ((n + 1 : Nat) : Int) * dx) (y + ((n + 1 : Nat) : Int) * dy)
            = none := by
          rw [get_actor_aligned W H _ _ _ hnd, List.find?_append,
            chainBoxes_find_final_none dx dy hd (n + 1) 0 x y, Option.none_or]
          rfl
        exact chain_push_blocked dx dy hd n fuel 0 x y [] [] W H oid hfuel hnd
          (by intro a ha; cases ha)
          (Or.inl ⟨hnone, hoob⟩)

/-- Witness for C3: a 5×5 stage with boxes at `(0, 0)` and `(1, 0)` pushed
east; the cell `(2, 0)` is in bounds and empty, so both boxes advance. -/
theorem c3_witness :
    ((false : Bool) = false →
      is_in_bounds (c3_stage 5 5 0 0 1 0 2 false) (0 + (2 : Int) * 1) (0 + (2 : Int) * 0) = true →
      moveActor 5 (c3_stage 5 5 0 0 1 0 2 false) 0 9 1 0
        = (some true, alignedStage 5 5 (chainBoxes 0 (0 + 1) (0 + 0) 1 0 2))) ∧
    ((false : Bool) = true ∨
      is_in_bounds (c3_stage 5 5 0 0 1 0 2 false) (0 + (2 : Int) * 1) (0 + (2 : Int) * 0) = false →
      moveActor 5 (c3_stage 5 5 0 0 1 0 2 false) 0 9 1 0
        = (some false, c3_stage 5 5 0 0 1 0 2 false)) :=
  c3_push_chain_atomic 5 5 0 0 1 0 2 5 9 false (by decide) (by decide) (by decide)
